import Mathlib

/-!
Verification of the cursor-chat-browser attribution resolver and conversation
assembler against its specification.

JavaScript strings are modelled as lists of characters (abbreviation Str).
JavaScript objects used as string-keyed records are modelled as association
lists where property assignment prepends and property read takes the first
matching key (so a later assignment shadows an earlier one, exactly as in JS).
JavaScript numbers are modelled as integers; the only numeric values the code
manipulates are timestamps, token counts and costs.  File-system reads and
JSON parsing happen at the I/O boundary of the modelled core: a workspace
entry is modelled together with the folder list that getWorkspaceFolderPaths
extracts from its parsed workspace.json, and records that fail to parse are
simply absent from the input lists (the source swallows those errors).
-/

abbrev Str := List Char

/-- JS String.prototype.trim: drop whitespace from both ends. -/
def trimStr (s : Str) : Str :=
  ((s.dropWhile Char.isWhitespace).reverse.dropWhile Char.isWhitespace).reverse

/-- One anchored replace of a literal string: models s.replace(/^pre/, ""). -/
def stripLeading (pre s : Str) : Str :=
  if pre <+: s then s.drop pre.length else s

/-- JS s.replace("lit", "") with a plain string pattern: removes the first
occurrence of the literal anywhere in the string (not anchored). -/
def removeFirstOcc (lit : Str) : Str → Str
  | [] => []
  | c :: rest =>
    if lit <+: (c :: rest) then (c :: rest).drop lit.length
    else c :: removeFirstOcc lit rest

/-- JS s.split(sep).pop(): the substring after the last separator. -/
def lastSeg (sep : Char) (s : Str) : Str :=
  ((s.reverse.takeWhile (fun c => c ≠ sep))).reverse

/-- JS truthiness of an optional string: the empty string is falsy. -/
def truthyS : Option Str → Option Str
  | some s => if s = [] then none else some s
  | none => none

/-- JS a || b for a an optional string and b a string default. -/
def jsOrS (a : Option Str) (b : Str) : Str :=
  match a with
  | some s => if s = [] then b else s
  | none => b

/-- JS a || b for an optional number a (0 is falsy) and a number default. -/
def jsOrI (a : Option Int) (b : Int) : Int :=
  match a with
  | some v => if v = 0 then b else v
  | none => b

/-- Value of a hexadecimal digit, as used by decodeURIComponent. -/
def hexVal (c : Char) : Option Nat :=
  if '0' ≤ c ∧ c ≤ '9' then some (c.toNat - '0'.toNat)
  else if 'a' ≤ c ∧ c ≤ 'f' then some (c.toNat - 'a'.toNat + 10)
  else if 'A' ≤ c ∧ c ≤ 'F' then some (c.toNat - 'A'.toNat + 10)
  else none

/-- Tokenisation pass of decodeURIComponent: each %XX escape becomes a byte,
every other character passes through; a % not followed by two hex digits is a
URIError (none). -/
inductive UriTok where
  | raw (c : Char)
  | byte (b : Nat)
deriving DecidableEq

def uriTokens : Str → Option (List UriTok)
  | [] => some []
  | c :: rest =>
    if c = '%' then
      match rest with
      | h1 :: h2 :: rest2 =>
        match hexVal h1, hexVal h2 with
        | some v1, some v2 =>
          (uriTokens rest2).map (fun ts => UriTok.byte (16 * v1 + v2) :: ts)
        | _, _ => none
      | _ => none
    else (uriTokens rest).map (fun ts => UriTok.raw c :: ts)

/-- Is b a UTF-8 continuation byte (10xxxxxx)? -/
def isCont (b : Nat) : Prop := 0x80 ≤ b ∧ b ≤ 0xBF

instance (b : Nat) : Decidable (isCont b) := by unfold isCont; infer_instance

/-- Assembly pass of decodeURIComponent: escape-produced bytes must form valid
(shortest-form, non-surrogate) UTF-8 sequences, each continuation byte itself
coming from an escape; anything else is a URIError (none). -/
def uriAssemble : List UriTok → Option Str
  | [] => some []
  | .raw c :: ts => (uriAssemble ts).map (fun s => c :: s)
  | .byte b :: ts =>
    if b < 0x80 then (uriAssemble ts).map (fun s => Char.ofNat b :: s)
    else if 0xC2 ≤ b ∧ b ≤ 0xDF then
      match ts with
      | .byte b2 :: ts2 =>
        if isCont b2 then
          (uriAssemble ts2).map (fun s => Char.ofNat ((b - 0xC0) * 64 + (b2 - 0x80)) :: s)
        else none
      | _ => none
    else if 0xE0 ≤ b ∧ b ≤ 0xEF then
      match ts with
      | .byte b2 :: .byte b3 :: ts3 =>
        if (if b = 0xE0 then 0xA0 ≤ b2 ∧ b2 ≤ 0xBF
            else if b = 0xED then 0x80 ≤ b2 ∧ b2 ≤ 0x9F
            else isCont b2) ∧ isCont b3 then
          (uriAssemble ts3).map
            (fun s => Char.ofNat ((b - 0xE0) * 4096 + (b2 - 0x80) * 64 + (b3 - 0x80)) :: s)
        else none
      | _ => none
    else if 0xF0 ≤ b ∧ b ≤ 0xF4 then
      match ts with
      | .byte b2 :: .byte b3 :: .byte b4 :: ts4 =>
        if (if b = 0xF0 then 0x90 ≤ b2 ∧ b2 ≤ 0xBF
            else if b = 0xF4 then 0x80 ≤ b2 ∧ b2 ≤ 0x8F
            else isCont b2) ∧ isCont b3 ∧ isCont b4 then
          (uriAssemble ts4).map (fun s =>
            Char.ofNat ((b - 0xF0) * 262144 + (b2 - 0x80) * 4096 + (b3 - 0x80) * 64 + (b4 - 0x80)) :: s)
        else none
      | _ => none
    else none

/-- Model of JS decodeURIComponent; none models a thrown URIError. -/
def decodeUriComponent (s : Str) : Option Str :=
  (uriTokens s).bind uriAssemble

/-- The file:/// scheme literal. -/
def fileSlash3 : Str := "file:///".data

/-- The file:// scheme literal. -/
def fileSlash2 : Str := "file://".data

/-- Windows drive-letter fix: s.replace(/^\\([a-z]:)/i, "$1") removes a
single leading backslash standing immediately before a drive letter and its
colon (the i flag admits both letter cases). -/
def stripDriveSlash (s : Str) : Str :=
  match s with
  | a :: b :: c :: rest =>
    if a = '\\' ∧ c = ':' ∧ (('a' ≤ b ∧ b ≤ 'z') ∨ ('A' ≤ b ∧ b ≤ 'Z'))
    then b :: c :: rest
    else a :: b :: c :: rest
  | s => s

/-- normalizeFilePath from route.ts / export.js: strip a leading file:/// then
a leading file://, URL-decode with silent fallback, and on win32 convert
slashes to backslashes, fix a leading backslash before a drive letter, and
lowercase.  isWin models process.platform === win32, fixed for a run. -/
def normalizeFilePath (isWin : Bool) (filePath : Str) : Str :=
  let n := stripLeading fileSlash3 filePath
  let n := stripLeading fileSlash2 n
  let n := match decodeUriComponent n with
    | some d => d
    | none => n
  if isWin then
    let n := n.map (fun c => if c = '/' then '\\' else c)
    let n := stripDriveSlash n
    n.map Char.toLower
  else n

/-- A JS object used as a string-to-string record: association list where a
property write prepends and a read returns the first (most recent) binding,
so later writes shadow earlier ones exactly as JS assignment does. -/
abbrev RecS := List (Str × Str)

def assocGet {β : Type} (m : List (Str × β)) (k : Str) : Option β :=
  (m.find? (fun p => decide (p.1 = k))).map (·.2)

def recGet (m : RecS) (k : Str) : Option Str := assocGet m k

def recSet (m : RecS) (k v : Str) : RecS := (k, v) :: m

/-- One workspaceStorage directory entry together with the folder list that
getWorkspaceFolderPaths extracts from its parsed workspace.json (the single
folder field, if any, followed by the folders array paths).  Entries whose
workspace.json fails to read or parse are skipped by the source and are
therefore absent from the modelled list. -/
structure WorkspaceEntry where
  name : Str
  folders : List Str
deriving DecidableEq

/-- getProjectFromFilePath from route.ts / export.js: longest normalized
workspace root that is a raw string prefix of the normalized path wins; the
strict comparison keeps the first-encountered entry on ties. -/
def getProjectFromFilePath (isWin : Bool) (filePath : Str)
    (workspaceEntries : List WorkspaceEntry) : Option Str :=
  let normalizedPath := normalizeFilePath isWin filePath
  (workspaceEntries.foldl (fun st entry =>
    entry.folders.foldl (fun st folder =>
      let workspacePath := normalizeFilePath isWin folder
      if workspacePath <+: normalizedPath ∧ st.2 < workspacePath.length
      then (some entry.name, workspacePath.length) else st) st)
    ((none : Option Str), 0)).1

/-- Generic form of the best-so-far update all the longest-match loops use. -/
def pickStep {β : Type} (st : Option β × Nat) (q : β × Nat) : Option β × Nat :=
  if st.2 < q.2 then (some q.1, q.2) else st

def pickBest {β : Type} (scores : List (β × Nat)) (st : Option β × Nat) : Option β × Nat :=
  scores.foldl pickStep st

/-- Structural reformulation of the best-so-far loop, used to characterise it. -/
def pickAbove {β : Type} (lo : Nat) : List (β × Nat) → Option (β × Nat)
  | [] => none
  | q :: rest =>
    if lo < q.2 then
      match pickAbove q.2 rest with
      | some r => some r
      | none => some q
    else pickAbove lo rest

def maxScore {β : Type} (scores : List (β × Nat)) : Nat :=
  scores.foldr (fun q m => max q.2 m) 0

/-- The first list element attaining the maximal score. -/
def firstAtMax {β : Type} (scores : List (β × Nat)) : Option (β × Nat) :=
  scores.find? (fun q => decide (q.2 = maxScore scores))

/-- JS s.split('/').pop() || s.split('\\').pop(). -/
def basenameOr (s : Str) : Str :=
  let a := lastSeg '/' s
  if a ≠ [] then a else lastSeg '\\' s

/-- JS s.split('/').pop()?.split('\\').pop(). -/
def basenameChain (s : Str) : Str := lastSeg '\\' (lastSeg '/' s)

/-- createProjectNameToWorkspaceIdMap from route.ts (and the matching loop of
export.js): for every folder of every entry, bind the folder basename to the
entry name by plain JS object assignment. -/
def createProjectNameToWorkspaceIdMap (workspaceEntries : List WorkspaceEntry) : RecS :=
  workspaceEntries.foldl (fun m entry =>
    entry.folders.foldl (fun m folder =>
      let workspacePath := stripLeading fileSlash2 folder
      let folderName := basenameOr workspacePath
      if folderName ≠ [] then recSet m folderName entry.name else m) m) []

/-- createWorkspacePathToIdMap from route.ts: normalized full root path to
workspace id, again by plain JS object assignment. -/
def createWorkspacePathToIdMap (isWin : Bool) (workspaceEntries : List WorkspaceEntry) : RecS :=
  workspaceEntries.foldl (fun m entry =>
    entry.folders.foldl (fun m folder =>
      recSet m (normalizeFilePath isWin folder) entry.name) m) []

def sepChar (isWin : Bool) : Char := if isWin then '\\' else '/'

/-- The segment test of the fallback heuristic: p.includes(sep+name+sep) or
p.endsWith(sep+name). -/
def segMatch (isWin : Bool) (p name : Str) : Prop :=
  (sepChar isWin :: (name ++ [sepChar isWin])) <:+: p ∨ (sepChar isWin :: name) <:+ p

instance (isWin : Bool) (p name : Str) : Decidable (segMatch isWin p name) := by
  unfold segMatch; infer_instance

/-- folderNameToWorkspaceId of the segment pass: every folder basename paired
with its entry name, in entry order, empty names skipped. -/
def folderNameEntries (workspaceEntries : List WorkspaceEntry) : List (Str × Str) :=
  workspaceEntries.flatMap (fun entry =>
    entry.folders.filterMap (fun folder =>
      let name := basenameChain (stripLeading fileSlash2 folder)
      if name ≠ [] then some (name, entry.name) else none))

/-- The segment heuristic loops: over all collected paths and all folder
basenames, keep the workspace of the longest basename that occurs as a
separator-bounded segment of some path. -/
def segmentHeuristic (isWin : Bool) (pathSegments : List Str)
    (folderNames : List (Str × Str)) : Option Str :=
  (pathSegments.foldl (fun st p =>
    folderNames.foldl (fun st pr =>
      if segMatch isWin p pr.1 ∧ st.2 < pr.1.length then (some pr.2, pr.1.length) else st) st)
    ((none : Option Str), 0)).1

/-- A node of the Lexical rich-text tree stored in bubble.richText (a text
leaf, a code subtree, or any other node with children). -/
inductive RichNode where
  | text (s : Str)
  | code (children : List RichNode)
  | node (children : List RichNode)

/-- extractTextFromRichText: depth-first flattening, text leaves concatenated,
code subtrees wrapped in a fenced block. -/
def extractTextFromRichText : List RichNode → Str
  | [] => []
  | .text s :: rest => (if s ≠ [] then s else []) ++ extractTextFromRichText rest
  | .code cs :: rest =>
      ("\n```\n".data ++ extractTextFromRichText cs ++ "\n```\n".data)
        ++ extractTextFromRichText rest
  | .node cs :: rest => extractTextFromRichText cs ++ extractTextFromRichText rest

structure CodeBlock where
  language : Str := []
  content : Str := []
deriving DecidableEq

structure ToolFormerData where
  name : Option Str := none
  params : Option Str := none
  rawArgs : Option Str := none
  result : Option Str := none
  status : Option Str := none
deriving DecidableEq

/-- bubble.thinking is either a string or an object carrying a text field. -/
inductive ThinkVal where
  | str (s : Str)
  | obj (text : Option Str)
deriving DecidableEq

/-- JS truthiness of the thinking field: a missing field and the empty string
are falsy, every object is truthy. -/
def thinkTruthy : Option ThinkVal → Bool
  | none => false
  | some (.str s) => s ≠ []
  | some (.obj _) => true

/-- The string the source extracts from a truthy thinking field. -/
def thinkText : ThinkVal → Option Str
  | .str s => some s
  | .obj t => t

structure TokenCount where
  inputTokens : Option Int := none
  outputTokens : Option Int := none
  cachedTokens : Option Int := none
deriving DecidableEq

/-- One stored message fragment (a bubbleId row), as parsed from the global
database.  richText models the successfully parsed root.children of the
stored JSON string (parse failure or a missing field is none, matching the
swallowed errors of the source); attachedFileCodeChunksUris and
fileSelections carry the uri.path values that are present; toolResults is
the length of the raw.toolResults array when that field is an array. -/
structure Bubble where
  text : Str := []
  richText : Option (List RichNode) := none
  codeBlocks : List CodeBlock := []
  toolFormerData : Option ToolFormerData := none
  thinking : Option ThinkVal := none
  thinkingDurationMs : Option Int := none
  createdAt : Option Int := none
  timestamp : Option Int := none
  relevantFiles : List Str := []
  attachedFileCodeChunksUris : List Str := []
  fileSelections : List Str := []
  modelName : Option Str := none
  tokenCount : Option TokenCount := none
  toolResults : Option Nat := none
  cost : Option Int := none
  usageCost : Option Int := none
  usageEstimatedCost : Option Int := none
  contextWindowPercent : Option Int := none

/-- extractTextFromBubble: the text field when its trim is nonempty, else the
flattened rich text, with every nonempty code block appended as a fence. -/
def extractTextFromBubble (bubble : Bubble) : Str :=
  let text := if trimStr bubble.text ≠ [] then bubble.text else []
  let text := if text = [] then
      match bubble.richText with
      | some children => extractTextFromRichText children
      | none => text
    else text
  bubble.codeBlocks.foldl (fun t cb =>
    if cb.content ≠ [] then
      t ++ "\n\n```".data ++ cb.language ++ ("\n".data ++ cb.content ++ "\n```".data)
    else t) text

/-- One entry of fullConversationHeadersOnly; type 1 marks a user turn. -/
structure HeaderRef where
  bubbleId : Str
  type : Nat := 2
deriving DecidableEq

/-- One parsed composerData row.  newlyCreatedFiles carries the uri.path
values that are present; codeBlockData is the ordered key list of that object
when the field is a (truthy) object; usageCost and usageEstimatedCost model
usageData.cost and usageData.estimatedCost when they are numbers. -/
structure ComposerRecord where
  name : Option Str := none
  createdAt : Option Int := none
  lastUpdatedAt : Option Int := none
  newlyCreatedFiles : List Str := []
  codeBlockData : Option (List Str) := none
  fullConversationHeadersOnly : List HeaderRef := []
  usageCost : Option Int := none
  usageEstimatedCost : Option Int := none
deriving DecidableEq

/-- Step 3 of the resolver: created files, then code-block keys, then each
header bubble's relevantFiles, attached chunk uris and file selections, each
tried through getProjectFromFilePath, first hit wins. -/
def referencedPathLookup (isWin : Bool) (composerData : ComposerRecord)
    (workspaceEntries : List WorkspaceEntry) (bubbleMap : List (Str × Bubble)) : Option Str :=
  match composerData.newlyCreatedFiles.findSome? (fun p =>
      if p ≠ [] then truthyS (getProjectFromFilePath isWin p workspaceEntries) else none) with
  | some w => some w
  | none =>
  match (composerData.codeBlockData.getD []).findSome? (fun fp =>
      truthyS (getProjectFromFilePath isWin (removeFirstOcc fileSlash2 fp) workspaceEntries)) with
  | some w => some w
  | none =>
    composerData.fullConversationHeadersOnly.findSome? (fun h =>
      match assocGet bubbleMap h.bubbleId with
      | none => none
      | some b =>
        match b.relevantFiles.findSome? (fun fp =>
            if fp ≠ [] then truthyS (getProjectFromFilePath isWin fp workspaceEntries)
            else none) with
        | some w => some w
        | none =>
        match b.attachedFileCodeChunksUris.findSome? (fun u =>
            if u ≠ [] then truthyS (getProjectFromFilePath isWin u workspaceEntries)
            else none) with
        | some w => some w
        | none => b.fileSelections.findSome? (fun u =>
            if u ≠ [] then truthyS (getProjectFromFilePath isWin u workspaceEntries)
            else none))

/-- The flat list of normalized candidate paths the segment heuristic scans,
in source order: created files, code-block keys, then per header the bubble's
relevantFiles, attached chunk uris and file selections. -/
def collectPathSegments (isWin : Bool) (composerData : ComposerRecord)
    (bubbleMap : List (Str × Bubble)) : List Str :=
  (composerData.newlyCreatedFiles.filterMap (fun p =>
    if p ≠ [] then some (normalizeFilePath isWin p) else none))
  ++ ((composerData.codeBlockData.getD []).map
      (fun fp => normalizeFilePath isWin (removeFirstOcc fileSlash2 fp)))
  ++ composerData.fullConversationHeadersOnly.flatMap (fun h =>
      match assocGet bubbleMap h.bubbleId with
      | none => []
      | some b =>
        (b.relevantFiles.filterMap (fun fp =>
          if fp ≠ [] then some (normalizeFilePath isWin fp) else none))
        ++ (b.attachedFileCodeChunksUris.filterMap (fun u =>
          if u ≠ [] then some (normalizeFilePath isWin u) else none))
        ++ (b.fileSelections.filterMap (fun u =>
          if u ≠ [] then some (normalizeFilePath isWin u) else none)))

/-- One declared root path of the layout pass of the route resolver: the
exact normalized-path index first, then the raw basename through the basename
index, each read under JS truthiness. -/
def layoutLookupRoute (isWin : Bool) (projectNameToWorkspaceId workspacePathToId : RecS)
    (rootPath : Str) : Option Str :=
  let normalized := normalizeFilePath isWin rootPath
  match truthyS (recGet workspacePathToId normalized) with
  | some w => some w
  | none =>
    let folderName := basenameOr rootPath
    if folderName ≠ [] then truthyS (recGet projectNameToWorkspaceId folderName)
    else none

/-- The body shared by the tabs route and the workspaces route of
determineProjectForConversation: declared project layouts (exact normalized
path, then basename, first truthy hit returns), then referenced paths, then
the segment heuristic, each falsy result falling through. -/
def determineProjectCore (isWin : Bool) (composerData : ComposerRecord) (composerId : Str)
    (projectLayoutsMap : List (Str × List Str)) (projectNameToWorkspaceId : RecS)
    (workspacePathToId : RecS) (workspaceEntries : List WorkspaceEntry)
    (bubbleMap : List (Str × Bubble)) : Option Str :=
  let projectLayouts := (assocGet projectLayoutsMap composerId).getD []
  match projectLayouts.findSome?
      (layoutLookupRoute isWin projectNameToWorkspaceId workspacePathToId) with
  | some w => some w
  | none =>
  match referencedPathLookup isWin composerData workspaceEntries bubbleMap with
  | some w => some w
  | none =>
    truthyS (segmentHeuristic isWin (collectPathSegments isWin composerData bubbleMap)
      (folderNameEntries workspaceEntries))

/-- determineProjectForConversation of the workspaces route: the definitive
per-workspace composer map short-circuits everything when its entry for this
composer id is truthy; otherwise the shared body runs.  The tabs route is the
same function without the map, i.e. with an empty map. -/
def determineProjectForConversation (isWin : Bool) (composerData : ComposerRecord)
    (composerId : Str) (projectLayoutsMap : List (Str × List Str))
    (projectNameToWorkspaceId : RecS) (workspacePathToId : RecS)
    (workspaceEntries : List WorkspaceEntry) (bubbleMap : List (Str × Bubble))
    (composerIdToWorkspaceId : RecS) : Option Str :=
  match truthyS (recGet composerIdToWorkspaceId composerId) with
  | some w => some w
  | none =>
    determineProjectCore isWin composerData composerId projectLayoutsMap
      projectNameToWorkspaceId workspacePathToId workspaceEntries bubbleMap

/-- assignWorkspace of the CLI exporter: the declared layout whose normalized
string is longest among those with a full-path match wins; otherwise the same
path collection feeds the segment heuristic; otherwise the global bucket. -/
def assignWorkspace (isWin : Bool) (composerData : ComposerRecord) (composerId : Str)
    (projectLayoutsMap : List (Str × List Str)) (workspaceEntries : List WorkspaceEntry)
    (bubbleMap : List (Str × Bubble)) : Str :=
  match (((assocGet projectLayoutsMap composerId).getD []).foldl (fun st rp =>
      match truthyS (getProjectFromFilePath isWin rp workspaceEntries) with
      | some m =>
        if st.2 < (normalizeFilePath isWin rp).length
        then (some m, (normalizeFilePath isWin rp).length) else st
      | none => st) ((none : Option Str), 0)).1 with
  | some w => w
  | none =>
    jsOrS (segmentHeuristic isWin (collectPathSegments isWin composerData bubbleMap)
      (folderNameEntries workspaceEntries)) "global".data

/-- JS a || b on two optional strings, keeping the raw second operand. -/
def jsOrO (a b : Option Str) : Option Str :=
  match a with
  | some s => if s = [] then b else some s
  | none => b

/-- JS template interpolation of a possibly undefined string. -/
def jsTmpl (o : Option Str) : Str :=
  match o with
  | some s => s
  | none => "undefined".data

/-- One attachedFoldersListDirResults entry of a messageRequestContext. -/
structure CtxFolder where
  path : Option Str := none
  files : List (Str × Str) := []
deriving DecidableEq

/-- One parsed messageRequestContext row for a composer.  terminalFiles
carries the file.path values; cursorRules pairs are (name, description);
summarizedComposers pairs are (name, composerId). -/
structure MsgContext where
  bubbleId : Str := []
  gitStatusRaw : Option Str := none
  terminalFiles : List Str := []
  attachedFolders : List CtxFolder := []
  cursorRules : List (Option Str × Option Str) := []
  summarizedComposers : List (Option Str × Option Str) := []
deriving DecidableEq

/-- The context markdown the route appends for one matching context row. -/
def ctxBlock (context : MsgContext) : Str :=
  let s : Str := []
  let s := s ++ (match truthyS context.gitStatusRaw with
    | some g => "\n\n**Git Status:**\n```\n".data ++ g ++ "\n```".data
    | none => [])
  let s := s ++ (if context.terminalFiles ≠ [] then
      "\n\n**Terminal Files:**".data
        ++ context.terminalFiles.flatMap (fun p => "\n- ".data ++ p)
    else [])
  let s := s ++ (if context.attachedFolders ≠ [] then
      "\n\n**Attached Folders:**".data ++ context.attachedFolders.flatMap (fun folder =>
        if folder.files ≠ [] then
          "\n\n**Folder:** ".data ++ jsOrS folder.path "Unknown".data
            ++ folder.files.flatMap (fun f =>
                "\n- ".data ++ f.1 ++ " (".data ++ f.2 ++ ")".data)
        else [])
    else [])
  let s := s ++ (if context.cursorRules ≠ [] then
      "\n\n**Cursor Rules:**".data ++ context.cursorRules.flatMap (fun r =>
        "\n- ".data ++ jsOrS r.1 (jsOrS r.2 "Rule".data))
    else [])
  s ++ (if context.summarizedComposers ≠ [] then
      "\n\n**Related Conversations:**".data ++ context.summarizedComposers.flatMap (fun c =>
        "\n- ".data ++ jsOrS c.1 (jsOrS c.2 "Conversation".data))
    else [])

/-- The contextText accumulated for a bubble: every context row of the
composer whose bubbleId matches contributes its blocks, in row order. -/
def contextTextFor (messageContexts : List MsgContext) (bubbleId : Str) : Str :=
  messageContexts.foldl (fun acc context =>
    if context.bubbleId = bubbleId then acc ++ ctxBlock context else acc) []

/-- The tool-call summary extracted from toolFormerData. -/
structure ToolCallOut where
  name : Option Str := none
  params : Option Str := none
  result : Option Str := none
  status : Option Str := none
deriving DecidableEq

def mkToolCalls (bubble : Bubble) : Option (List ToolCallOut) :=
  bubble.toolFormerData.map (fun tfd =>
    [{ name := tfd.name,
       params := match tfd.params with
         | some p => some p
         | none => truthyS tfd.rawArgs,
       result := tfd.result.map (List.take 500),
       status := tfd.status }])

/-- The thinking string of a bubble, as the route extracts it. -/
def bubbleThinking (bubble : Bubble) : Option Str :=
  if thinkTruthy bubble.thinking then bubble.thinking.bind thinkText else none

structure BubbleMeta where
  modelName : Option Str := none
  inputTokens : Option Int := none
  outputTokens : Option Int := none
  cachedTokens : Option Int := none
  toolResultsCount : Option Nat := none
  toolResults : Option Nat := none
  toolCalls : Option (List ToolCallOut) := none
  thinking : Option Str := none
  thinkingDurationMs : Option Int := none
  responseTimeMs : Option Int := none
  cost : Option Int := none
  contextWindowPercent : Option Int := none
deriving DecidableEq

/-- JS truthiness of the hasMeta chain
modelName ?? inputTokens ?? outputTokens ?? cachedTokens ?? toolResultsCount
?? toolCalls ?? thinking ?? cost != null:
the first non-nullish operand decides, by its own truthiness. -/
def metaChainTruthy (m : BubbleMeta) : Bool :=
  match m.modelName with
  | some s => decide (s ≠ [])
  | none =>
  match m.inputTokens with
  | some n => decide (n ≠ 0)
  | none =>
  match m.outputTokens with
  | some n => decide (n ≠ 0)
  | none =>
  match m.cachedTokens with
  | some n => decide (n ≠ 0)
  | none =>
  match m.toolResultsCount with
  | some k => decide (k ≠ 0)
  | none =>
  match m.toolCalls with
  | some _ => true
  | none =>
  match m.thinking with
  | some s => decide (s ≠ [])
  | none => m.cost.isSome

structure ChatBubble where
  isUser : Bool
  text : Str
  timestamp : Option Int
  metadata : Option BubbleMeta := none
deriving DecidableEq

/-- The per-header bubble construction of the tabs route: none models a
skipped header (missing bubble or no displayable content).  now models the
Date.now() clock reading. -/
def mkChatBubble (messageContexts : List MsgContext) (bubbleMap : List (Str × Bubble))
    (now : Int) (header : HeaderRef) : Option ChatBubble :=
  match assocGet bubbleMap header.bubbleId with
  | none => none
  | some bubble =>
    let isUser := decide (header.type = 1)
    let text := extractTextFromBubble bubble
    let contextText := contextTextFor messageContexts header.bubbleId
    let fullText := text ++ contextText
    let toolCalls := mkToolCalls bubble
    let thinking := bubbleThinking bubble
    let thinkingDurationMs :=
      if thinkTruthy bubble.thinking then bubble.thinkingDurationMs else none
    let hasContent := trimStr fullText ≠ [] ∨ toolCalls.isSome = true ∨
      truthyS thinking ≠ none
    if hasContent then
      let d0 := trimStr fullText
      let d1 := if d0 = [] then
          match toolCalls with
          | some (tc :: _) =>
            "**Tool: ".data ++ jsOrS tc.name "unknown".data ++ "**".data
              ++ (match truthyS tc.status with
                  | some st => " (".data ++ st ++ ")".data
                  | none => [])
          | _ => d0
        else d0
      let d2 := if d1 = [] then
          match thinking with
          | some t =>
            if t ≠ [] then t.take 200 ++ (if 200 < t.length then "...".data else [])
            else d1
          | none => d1
        else d1
      let bubbleMeta : Option BubbleMeta := if isUser then none else some
        { modelName := bubble.modelName,
          inputTokens := bubble.tokenCount.bind (fun tc => tc.inputTokens),
          outputTokens := bubble.tokenCount.bind (fun tc => tc.outputTokens),
          cachedTokens := bubble.tokenCount.bind (fun tc => tc.cachedTokens),
          toolResultsCount := match toolCalls with
            | some l => some l.length
            | none => bubble.toolResults,
          toolResults := match bubble.toolResults with
            | some n => if 0 < n then some n else none
            | none => none,
          toolCalls := toolCalls,
          thinking := thinking,
          thinkingDurationMs := thinkingDurationMs,
          responseTimeMs := none,
          cost := match bubble.cost with
            | some c => some c
            | none => match bubble.usageCost with
              | some c => some c
              | none => bubble.usageEstimatedCost,
          contextWindowPercent := bubble.contextWindowPercent }
      let hasMeta := match bubbleMeta with
        | some m => metaChainTruthy m
        | none => false
      some { isUser := isUser, text := d2,
             timestamp := some (jsOrI bubble.createdAt (jsOrI bubble.timestamp now)),
             metadata := if hasMeta then bubbleMeta else none }
    else none

/-- The parameters object of a tool action (post JSON parse). -/
structure ToolParams where
  command : Option Str := none
  target_file : Option Str := none
  query : Option Str := none
  instructions : Option Str := none
deriving DecidableEq

structure FoundFile where
  name : Option Str := none
  path : Option Str := none
  type : Option Str := none
deriving DecidableEq

structure SearchHit where
  file : Option Str := none
  content : Option Str := none
deriving DecidableEq

/-- The result object of a tool action (post JSON parse). -/
structure ToolResultData where
  output : Option Str := none
  contents : Option Str := none
  exitCodeV2 : Option Int := none
  files : List FoundFile := []
  results : List SearchHit := []
deriving DecidableEq

/-- One parsed codeBlockDiff row, the action record formatToolAction renders.
newModelDiffWrtV0 carries each diff entry as its modified line list;
parameters and result are some none when the field is present but its JSON
string fails to parse (the source logs and skips the inner block);
webSearchResults carries each hit as its optional title. -/
structure ToolAction where
  newModelDiffWrtV0 : List (List Str) := []
  filePath : Option Str := none
  command : Option Str := none
  searchResults : Option Str := none
  webResults : Option Str := none
  toolName : Option Str := none
  parameters : Option (Option ToolParams) := none
  result : Option (Option ToolResultData) := none
  actionsTaken : List Str := []
  filesModified : List Str := []
  gitStatus : Option Str := none
  directoryListed : Option Str := none
  webSearchResults : Option (List (Option Str)) := none
  diffId : Str := []
deriving DecidableEq

/-- formatToolAction of the tabs route: the markdown rendering of a tool
action, block by block in source order. -/
def formatToolAction (action : ToolAction) : Str :=
  let r : Str := []
  let r := r ++ (if action.newModelDiffWrtV0 ≠ [] then
      action.newModelDiffWrtV0.flatMap (fun diffm =>
        if diffm ≠ [] then
          "\n\n**Code Changes:**\n```\n".data ++ List.intercalate "\n".data diffm
            ++ "\n```".data
        else [])
    else [])
  let r := r ++ (match truthyS action.filePath with
    | some f => "\n\n**File:** ".data ++ f
    | none => [])
  let r := r ++ (match truthyS action.command with
    | some c => "\n\n**Command:** `".data ++ c ++ "`".data
    | none => [])
  let r := r ++ (match truthyS action.searchResults with
    | some s => "\n\n**Search Results:**\n".data ++ s
    | none => [])
  let r := r ++ (match truthyS action.webResults with
    | some s => "\n\n**Web Search:**\n".data ++ s
    | none => [])
  let r := r ++ (match truthyS action.toolName with
    | some tn =>
      let r1 := "\n\n**Tool Action:** ".data ++ tn
      let r1 := r1 ++ (match action.parameters with
        | some (some params) =>
          (match truthyS params.command with
            | some c => "\n**Command:** `".data ++ c ++ "`".data
            | none => [])
          ++ (match truthyS params.target_file with
            | some f => "\n**File:** ".data ++ f
            | none => [])
          ++ (match truthyS params.query with
            | some q => "\n**Query:** ".data ++ q
            | none => [])
          ++ (match truthyS params.instructions with
            | some i => "\n**Instructions:** ".data ++ i
            | none => [])
        | _ => [])
      r1 ++ (match action.result with
        | some (some rd) =>
          (match truthyS rd.output with
            | some o => "\n\n**Output:**\n```\n".data ++ o ++ "\n```".data
            | none => [])
          ++ (match truthyS rd.contents with
            | some c => "\n\n**File Contents:**\n```\n".data ++ c ++ "\n```".data
            | none => [])
          ++ (match rd.exitCodeV2 with
            | some e => "\n\n**Exit Code:** ".data ++ (toString e).data
            | none => [])
          ++ (if rd.files ≠ [] then
              "\n\n**Files Found:**".data ++ rd.files.flatMap (fun f =>
                "\n- ".data ++ jsTmpl (jsOrO f.name f.path)
                  ++ " (".data ++ jsOrS f.type "file".data ++ ")".data)
            else [])
          ++ (if rd.results ≠ [] then
              "\n\n**Results:**".data ++ rd.results.flatMap (fun sr =>
                match truthyS sr.file, truthyS sr.content with
                | some f, some c =>
                  "\n\n**File:** ".data ++ f ++ "\n```\n".data ++ c ++ "\n```".data
                | _, _ => [])
            else [])
        | _ => [])
    | none => [])
  let r := r ++ (if action.actionsTaken ≠ [] then
      "\n\n**Actions Taken:** ".data ++ List.intercalate ", ".data action.actionsTaken
    else [])
  let r := r ++ (if action.filesModified ≠ [] then
      "\n\n**Files Modified:**".data
        ++ action.filesModified.flatMap (fun f => "\n- ".data ++ f)
    else [])
  let r := r ++ (match truthyS action.gitStatus with
    | some g => "\n\n**Git Status:**\n```\n".data ++ g ++ "\n```".data
    | none => [])
  let r := r ++ (match truthyS action.directoryListed with
    | some d => "\n\n**Directory Listed:** ".data ++ d
    | none => [])
  r ++ (match action.webSearchResults with
    | some hits => "\n\n**Web Search Results:**".data ++ hits.flatMap (fun t =>
        match truthyS t with
        | some title => "\n- ".data ++ title
        | none => [])
    | none => [])

/-- One step of the response-time pass over the sorted bubble list. -/
def respUpdate (st : Option Int) (b : ChatBubble) : Option Int × ChatBubble :=
  if b.isUser then (b.timestamp, b)
  else match st, b.timestamp with
    | some lu, some t =>
      if lu < t then
        (st, { b with metadata := some (match b.metadata with
            | some m => { m with responseTimeMs := some (t - lu) }
            | none => { responseTimeMs := some (t - lu) }) })
      else (st, b)
    | _, _ => (st, b)

def respGo (st : Option Int) : List ChatBubble → List ChatBubble
  | [] => []
  | b :: rest =>
    let p := respUpdate st b
    p.2 :: respGo p.1 rest

/-- The response-time pass: thread the last user timestamp through the sorted
list, recording t - lastUser on assistant bubbles with a strictly later
timestamp. -/
def respPass (bubbles : List ChatBubble) : List ChatBubble := respGo none bubbles

/-- The last-user-timestamp threading state after a prefix of the list. -/
def lastUserAfter (bubbles : List ChatBubble) : Option Int :=
  bubbles.foldl (fun st b => if b.isUser then b.timestamp else st) none

/-- The sort key of the bubble comparator (a.timestamp || 0). -/
def sortKeyTs (b : ChatBubble) : Int :=
  match b.timestamp with
  | some t => t
  | none => 0

/-- Insert a bubble after every already-placed bubble whose key is not
greater; since bubbles are inserted in original order, equal keys keep their
original relative order. -/
def insertBubble : List ChatBubble → ChatBubble → List ChatBubble
  | [], b => [b]
  | c :: rest, b =>
    if sortKeyTs c ≤ sortKeyTs b then c :: insertBubble rest b
    else b :: c :: rest

/-- The sort of the bubble list: ES2019 Array.prototype.sort is a stable sort
under the comparator (a.timestamp || 0) - (b.timestamp || 0), modelled by a
stable insertion sort ascending on that key. -/
def sortBubbles (bubbles : List ChatBubble) : List ChatBubble :=
  bubbles.foldl insertBubble []

/-- Running totals of the metrics loop. -/
structure Totals where
  totalInput : Int := 0
  totalOutput : Int := 0
  totalCached : Int := 0
  totalResponseTimeMs : Int := 0
  totalCost : Int := 0
  totalToolCalls : Nat := 0
  totalThinkingDurationMs : Int := 0
  modelsSet : List Str := []
deriving DecidableEq

/-- JS Set.add: keep insertion order, ignore duplicates. -/
def addModel (models : List Str) (name : Str) : List Str :=
  if name ∈ models then models else models ++ [name]

def accumTotals (t : Totals) (b : ChatBubble) : Totals :=
  match b.metadata with
  | none => t
  | some m =>
    let t := match m.inputTokens with
      | some v => { t with totalInput := t.totalInput + v }
      | none => t
    let t := match m.outputTokens with
      | some v => { t with totalOutput := t.totalOutput + v }
      | none => t
    let t := match m.cachedTokens with
      | some v => { t with totalCached := t.totalCached + v }
      | none => t
    let t := match m.responseTimeMs with
      | some v => { t with totalResponseTimeMs := t.totalResponseTimeMs + v }
      | none => t
    let t := match m.cost with
      | some v => { t with totalCost := t.totalCost + v }
      | none => t
    let t := match m.modelName with
      | some s => if s ≠ [] then { t with modelsSet := addModel t.modelsSet s } else t
      | none => t
    let t := match m.toolCalls with
      | some l => if l.length ≠ 0 then { t with totalToolCalls := t.totalToolCalls + l.length } else t
      | none => t
    match m.thinkingDurationMs with
      | some v => { t with totalThinkingDurationMs := t.totalThinkingDurationMs + v }
      | none => t

structure TabMeta where
  totalInputTokens : Option Int := none
  totalOutputTokens : Option Int := none
  totalCachedTokens : Option Int := none
  modelsUsed : Option (List Str) := none
  totalResponseTimeMs : Option Int := none
  totalCost : Option Int := none
  totalToolCalls : Option Nat := none
  totalThinkingDurationMs : Option Int := none
deriving DecidableEq

/-- The aggregate-metrics block of a tab; none when every contributing value
is zero or empty. -/
def mkTabMeta (composerData : ComposerRecord) (bubbles : List ChatBubble) : Option TabMeta :=
  let t := bubbles.foldl accumTotals {}
  let composerCost : Option Int := match composerData.usageCost with
    | some c => some c
    | none => composerData.usageEstimatedCost
  let totalCost : Int := match composerCost with
    | some c => if t.totalCost = 0 then c else t.totalCost
    | none => t.totalCost
  if 0 < t.totalInput ∨ 0 < t.totalOutput ∨ 0 < t.totalCached ∨
     0 < t.totalResponseTimeMs ∨ 0 < totalCost ∨ t.modelsSet ≠ [] ∨
     0 < t.totalToolCalls ∨ 0 < t.totalThinkingDurationMs then
    some { totalInputTokens := if t.totalInput = 0 then none else some t.totalInput,
           totalOutputTokens := if t.totalOutput = 0 then none else some t.totalOutput,
           totalCachedTokens := if t.totalCached = 0 then none else some t.totalCached,
           modelsUsed := if t.modelsSet ≠ [] then some t.modelsSet else none,
           totalResponseTimeMs :=
             if t.totalResponseTimeMs = 0 then none else some t.totalResponseTimeMs,
           totalCost := if 0 < totalCost then some totalCost else none,
           totalToolCalls := if t.totalToolCalls = 0 then none else some t.totalToolCalls,
           totalThinkingDurationMs :=
             if t.totalThinkingDurationMs = 0 then none else some t.totalThinkingDurationMs }
  else none

structure ChatTab where
  id : Str
  title : Str
  timestamp : Option Int
  bubbles : List ChatBubble
  codeBlockDiffs : List ToolAction
  metadata : Option TabMeta := none
deriving DecidableEq

/-- The synthetic trailing assistant bubble built from one code-block diff;
none when the rendered action text trims to nothing.  now models the
Date.now() reading used for its timestamp. -/
def mkDiffBubble (now : Int) (diff : ToolAction) : Option ChatBubble :=
  let diffText := formatToolAction diff
  if trimStr diffText ≠ [] then
    some { isUser := false, text := "**Tool Action:**".data ++ diffText,
           timestamp := some now, metadata := none }
  else none

/-- The per-conversation assembly of the tabs route, after the workspace
check: build the kept bubbles, derive a title, append the code-block-diff
bubbles, sort by timestamp, run the response-time pass and the metrics loop.
none models a conversation skipped because no bubble was kept.  The final
re-mapping of the source (text || two-empty-string identity) is the identity
on this model; the tab timestamp is none when new Date(...) yields NaN. -/
def buildTab (composerData : ComposerRecord) (composerId : Str)
    (messageContexts : List MsgContext) (bubbleMap : List (Str × Bubble))
    (codeBlockDiffs : List ToolAction) (now : Int) : Option ChatTab :=
  let bubbles := composerData.fullConversationHeadersOnly.filterMap
    (mkChatBubble messageContexts bubbleMap now)
  if bubbles ≠ [] then
    let title := jsOrS composerData.name ("Conversation ".data ++ composerId.take 8)
    let title := if (truthyS composerData.name).isNone ∧ bubbles ≠ [] then
        match bubbles with
        | first :: _ =>
          if first.text ≠ [] then
            match (List.splitOn '\n' first.text).filter (fun l => trimStr l ≠ []) with
            | l0 :: _ =>
              let t := l0.take 100
              if t.length = 100 then t ++ "...".data else t
            | [] => title
          else title
        | [] => title
      else title
    let diffBubbles := codeBlockDiffs.filterMap (mkDiffBubble now)
    let final := respPass (sortBubbles (bubbles ++ diffBubbles))
    some { id := composerId, title := title,
           timestamp := match composerData.lastUpdatedAt with
             | some v => if v = 0 then composerData.createdAt else some v
             | none => composerData.createdAt,
           bubbles := final,
           codeBlockDiffs := codeBlockDiffs,
           metadata := mkTabMeta composerData final }
  else none

/-- One composer row of the tabs route: resolve the workspace with the shared
attribution body, keep only conversations of the requested workspace, then
assemble. -/
def processComposerRow (isWin : Bool) (paramsId : Str)
    (projectLayoutsMap : List (Str × List Str)) (projectNameToWorkspaceId : RecS)
    (workspacePathToId : RecS) (workspaceEntries : List WorkspaceEntry)
    (bubbleMap : List (Str × Bubble))
    (messageRequestContextMap : List (Str × List MsgContext))
    (codeBlockDiffMap : List (Str × List ToolAction)) (now : Int)
    (row : Str × ComposerRecord) : Option ChatTab :=
  let projectId := determineProjectCore isWin row.2 row.1 projectLayoutsMap
    projectNameToWorkspaceId workspacePathToId workspaceEntries bubbleMap
  if projectId.getD "global".data = paramsId then
    buildTab row.2 row.1 ((assocGet messageRequestContextMap row.1).getD [])
      bubbleMap ((assocGet codeBlockDiffMap row.1).getD []) now
  else none

/-- The tabs array of the route response for one workspace id. -/
def tabsResponse (isWin : Bool) (paramsId : Str)
    (projectLayoutsMap : List (Str × List Str)) (projectNameToWorkspaceId : RecS)
    (workspacePathToId : RecS) (workspaceEntries : List WorkspaceEntry)
    (bubbleMap : List (Str × Bubble))
    (messageRequestContextMap : List (Str × List MsgContext))
    (codeBlockDiffMap : List (Str × List ToolAction)) (now : Int)
    (composerRows : List (Str × ComposerRecord)) : List ChatTab :=
  composerRows.filterMap (processComposerRow isWin paramsId projectLayoutsMap
    projectNameToWorkspaceId workspacePathToId workspaceEntries bubbleMap
    messageRequestContextMap codeBlockDiffMap now)

/-- The entry-folder pairs of the catalog, flattened in iteration order. -/
def wsFolderPairs (workspaceEntries : List WorkspaceEntry) : List (Str × Str) :=
  workspaceEntries.flatMap (fun e => e.folders.map (fun f => (e.name, f)))

/-- Specification-side candidate list for getProjectFromFilePath: each
entry-folder pair scored by the length of its normalized folder when that
folder is a raw string prefix of the normalized path, and zero otherwise. -/
def prefixScores (isWin : Bool) (filePath : Str)
    (workspaceEntries : List WorkspaceEntry) : List (Str × Nat) :=
  (wsFolderPairs workspaceEntries).map (fun pr =>
    (pr.1,
      if normalizeFilePath isWin pr.2 <+: normalizeFilePath isWin filePath
      then (normalizeFilePath isWin pr.2).length else 0))

/-- Specification-side candidate list for the segment heuristic: every
(collected path, folder basename) combination in loop order, scored by the
basename length when the basename occurs as a separator-bounded segment of
the path, and zero otherwise; the candidate value is the workspace id. -/
def segScores (isWin : Bool) (pathSegments : List Str)
    (folderNames : List (Str × Str)) : List (Str × Nat) :=
  pathSegments.flatMap (fun p => folderNames.map (fun pr =>
    (pr.2, if segMatch isWin p pr.1 then pr.1.length else 0)))

/-- Specification-side candidate of the CLI layout pass: the workspace a
declared root path resolves to by full-path match (when truthy), scored by
the length of the normalized declared path itself. -/
def layoutScore (isWin : Bool) (workspaceEntries : List WorkspaceEntry)
    (rootPath : Str) : Option (Str × Nat) :=
  (truthyS (getProjectFromFilePath isWin rootPath workspaceEntries)).map
    (fun m => (m, (normalizeFilePath isWin rootPath).length))

/-- The (basename, workspace id) contributions to the basename map, in the
order the nested construction loops encounter them. -/
def basenameContribs (workspaceEntries : List WorkspaceEntry) : List (Str × Str) :=
  workspaceEntries.flatMap (fun e => e.folders.filterMap (fun folder =>
    let folderName := basenameOr (stripLeading fileSlash2 folder)
    if folderName ≠ [] then some (folderName, e.name) else none))

/-- The responseTimeMs value carried by a bubble, if any. -/
def respOf (b : ChatBubble) : Option Int :=
  match b.metadata with
  | some m => m.responseTimeMs
  | none => none

/-- Specification-side response time of the bubble at position i: defined
exactly when the bubble is an assistant bubble with a timestamp strictly
later than the last user timestamp threaded through the preceding bubbles. -/
def respSpec (bubbles : List ChatBubble) (i : Nat) (h : i < bubbles.length) : Option Int :=
  if (bubbles.get ⟨i, h⟩).isUser then none
  else match (bubbles.get ⟨i, h⟩).timestamp, lastUserAfter (bubbles.take i) with
    | some t, some lu => if lu < t then some (t - lu) else none
    | _, _ => none

/-- The truthy own timestamp of a stored fragment: createdAt when truthy,
else timestamp when truthy; none when the Date.now() fallback would fire. -/
def bubbleOwnTs (b : Bubble) : Option Int :=
  match b.createdAt with
  | some v =>
    if v = 0 then
      match b.timestamp with
      | some w => if w = 0 then none else some w
      | none => none
    else some v
  | none =>
    match b.timestamp with
    | some w => if w = 0 then none else some w
    | none => none

theorem maxScore_cons {β : Type} (q : β × Nat) (scores : List (β × Nat)) :
    maxScore (q :: scores) = max q.2 (maxScore scores) := rfl

theorem maxScore_attained {β : Type} (scores : List (β × Nat)) :
    maxScore scores = 0 ∨ ∃ q ∈ scores, q.2 = maxScore scores := by
  induction scores with
  | nil => exact Or.inl rfl
  | cons q rest ih =>
    rw [maxScore_cons]
    rcases Nat.le_total q.2 (maxScore rest) with h | h
    · rw [Nat.max_eq_right h]
      rcases ih with h0 | ⟨r, hr, hr2⟩
      · exact Or.inl h0
      · exact Or.inr ⟨r, List.mem_cons_of_mem _ hr, hr2⟩
    · rw [Nat.max_eq_left h]
      exact Or.inr ⟨q, List.mem_cons_self _ _, rfl⟩

theorem pickAbove_eq {β : Type} (scores : List (β × Nat)) :
    ∀ lo, pickAbove lo scores =
      if maxScore scores ≤ lo then none
      else scores.find? (fun q => decide (q.2 = maxScore scores)) := by
  induction scores with
  | nil =>
    intro lo
    simp [pickAbove, maxScore]
  | cons q rest ih =>
    intro lo
    rw [maxScore_cons]
    by_cases hq : lo < q.2
    · by_cases hr : maxScore rest ≤ q.2
      · have hmax : max q.2 (maxScore rest) = q.2 := Nat.max_eq_left hr
        rw [hmax]
        have h1 : pickAbove q.2 rest = none := by rw [ih q.2, if_pos hr]
        have h2 : ¬ q.2 ≤ lo := by omega
        simp only [pickAbove, if_pos hq, h1]
        rw [if_neg h2, List.find?_cons_of_pos _ (by simp)]
      · have hlt : q.2 < maxScore rest := by omega
        have hmax : max q.2 (maxScore rest) = maxScore rest := Nat.max_eq_right (by omega)
        rw [hmax]
        have h1 : pickAbove q.2 rest = rest.find? (fun r => decide (r.2 = maxScore rest)) := by
          rw [ih q.2, if_neg hr]
        have hex : ∃ r ∈ rest, (fun r : β × Nat => decide (r.2 = maxScore rest)) r = true := by
          rcases maxScore_attained rest with h0 | ⟨r, hmem, hval⟩
          · omega
          · exact ⟨r, hmem, by simp [hval]⟩
        have hsome : (rest.find? (fun r => decide (r.2 = maxScore rest))).isSome := by
          rw [List.find?_isSome]; exact hex
        obtain ⟨r, hfind⟩ := Option.isSome_iff_exists.mp hsome
        have h2 : ¬ maxScore rest ≤ lo := by omega
        simp only [pickAbove, if_pos hq, h1, hfind]
        rw [if_neg h2, List.find?_cons_of_neg _ (by simp; omega), hfind]
    · have hq2 : q.2 ≤ lo := by omega
      simp only [pickAbove, if_neg hq]
      rw [ih lo]
      by_cases hr : maxScore rest ≤ lo
      · have : max q.2 (maxScore rest) ≤ lo := by omega
        rw [if_pos hr, if_pos this]
      · have hmax : max q.2 (maxScore rest) = maxScore rest := Nat.max_eq_right (by omega)
        rw [hmax, if_neg hr, if_neg hr, List.find?_cons_of_neg _ (by simp; omega)]

theorem pickBest_eq_pickAbove {β : Type} (scores : List (β × Nat)) :
    ∀ (b0 : Option β) (lo : Nat),
      pickBest scores (b0, lo) =
        match pickAbove lo scores with
        | some r => (some r.1, r.2)
        | none => (b0, lo) := by
  induction scores with
  | nil =>
    intro b0 lo
    simp [pickBest, pickAbove]
  | cons q rest ih =>
    intro b0 lo
    by_cases hq : lo < q.2
    · have hstep : pickStep (b0, lo) q = (some q.1, q.2) := by simp [pickStep, hq]
      have hfold : pickBest (q :: rest) (b0, lo) = pickBest rest (some q.1, q.2) := by
        simp only [pickBest, List.foldl_cons, hstep]
      rw [hfold, ih (some q.1) q.2]
      simp only [pickAbove, if_pos hq]
      cases pickAbove q.2 rest <;> rfl
    · have hstep : pickStep (b0, lo) q = (b0, lo) := by simp [pickStep, hq]
      have hfold : pickBest (q :: rest) (b0, lo) = pickBest rest (b0, lo) := by
        simp only [pickBest, List.foldl_cons, hstep]
      rw [hfold, ih b0 lo]
      simp only [pickAbove, if_neg hq]

theorem pickBest_result {β : Type} (scores : List (β × Nat)) :
    (pickBest scores ((none : Option β), 0)).1 =
      if maxScore scores = 0 then none else (firstAtMax scores).map (fun q => q.1) := by
  rw [pickBest_eq_pickAbove, pickAbove_eq]
  by_cases h : maxScore scores = 0
  · simp [h]
  · have h2 : ¬ maxScore scores ≤ 0 := by omega
    rw [if_neg h2, if_neg h]
    unfold firstAtMax
    cases scores.find? (fun q => decide (q.2 = maxScore scores)) <;> rfl

theorem foldl_nested {σ α β : Type} (l : List α) (g : α → List β) (f : σ → β → σ) :
    ∀ init : σ,
      l.foldl (fun st a => (g a).foldl f st) init = (l.flatMap g).foldl f init := by
  induction l with
  | nil => intro init; rfl
  | cons a rest ih =>
    intro init
    simp only [List.foldl_cons, List.flatMap_cons, List.foldl_append]
    exact ih _

theorem foldl_filterMap_eq {σ α β : Type} (l : List α) (g : α → Option β) (f : σ → β → σ) :
    ∀ init : σ,
      l.foldl (fun st a => match g a with | some b => f st b | none => st) init
        = (l.filterMap g).foldl f init := by
  induction l with
  | nil => intro init; rfl
  | cons a rest ih =>
    intro init
    simp only [List.foldl_cons, List.filterMap_cons]
    cases g a
    · exact ih init
    · simp only [List.foldl_cons]
      exact ih _

theorem prefixScores_flat (isWin : Bool) (filePath : Str) (entries : List WorkspaceEntry) :
    prefixScores isWin filePath entries = entries.flatMap (fun e =>
      e.folders.map (fun folder =>
        (e.name,
          if normalizeFilePath isWin folder <+: normalizeFilePath isWin filePath
          then (normalizeFilePath isWin folder).length else 0))) := by
  unfold prefixScores wsFolderPairs
  rw [List.map_flatMap]
  congr 1
  funext e
  rw [List.map_map]
  rfl

theorem getProject_as_pickBest (isWin : Bool) (filePath : Str)
    (entries : List WorkspaceEntry) :
    getProjectFromFilePath isWin filePath entries =
      (pickBest (prefixScores isWin filePath entries) ((none : Option Str), 0)).1 := by
  rw [prefixScores_flat]
  show (entries.foldl (fun st entry =>
      entry.folders.foldl (fun st folder =>
        if normalizeFilePath isWin folder <+: normalizeFilePath isWin filePath ∧
            st.2 < (normalizeFilePath isWin folder).length
        then (some entry.name, (normalizeFilePath isWin folder).length) else st) st)
      ((none : Option Str), 0)).1 = _
  have hmain : (entries.foldl (fun st entry =>
      entry.folders.foldl (fun st folder =>
        if normalizeFilePath isWin folder <+: normalizeFilePath isWin filePath ∧
            st.2 < (normalizeFilePath isWin folder).length
        then (some entry.name, (normalizeFilePath isWin folder).length) else st) st)
      ((none : Option Str), 0)) =
      pickBest (entries.flatMap (fun e =>
        e.folders.map (fun folder =>
          (e.name,
            if normalizeFilePath isWin folder <+: normalizeFilePath isWin filePath
            then (normalizeFilePath isWin folder).length else 0)))) ((none : Option Str), 0) := by
    unfold pickBest
    rw [← foldl_nested]
    congr 1
    funext st e
    rw [List.foldl_map]
    congr 1
    funext st pr
    by_cases h : normalizeFilePath isWin pr <+: normalizeFilePath isWin filePath
    · simp only [pickStep, h, if_pos, true_and]
    · simp [pickStep, h]
  rw [hmain]

theorem segScores_flat (isWin : Bool) (pathSegments : List Str)
    (folderNames : List (Str × Str)) :
    segScores isWin pathSegments folderNames = pathSegments.flatMap (fun p =>
      folderNames.map (fun pr =>
        (pr.2, if segMatch isWin p pr.1 then pr.1.length else 0))) := rfl

theorem segmentHeuristic_as_pickBest (isWin : Bool) (pathSegments : List Str)
    (folderNames : List (Str × Str)) :
    segmentHeuristic isWin pathSegments folderNames =
      (pickBest (segScores isWin pathSegments folderNames) ((none : Option Str), 0)).1 := by
  rw [segScores_flat]
  show (pathSegments.foldl (fun st p =>
      folderNames.foldl (fun st pr =>
        if segMatch isWin p pr.1 ∧ st.2 < pr.1.length
        then (some pr.2, pr.1.length) else st) st)
      ((none : Option Str), 0)).1 = _
  have hmain : (pathSegments.foldl (fun st p =>
      folderNames.foldl (fun st pr =>
        if segMatch isWin p pr.1 ∧ st.2 < pr.1.length
        then (some pr.2, pr.1.length) else st) st)
      ((none : Option Str), 0)) =
      pickBest (pathSegments.flatMap (fun p =>
        folderNames.map (fun pr =>
          (pr.2, if segMatch isWin p pr.1 then pr.1.length else 0)))) ((none : Option Str), 0) := by
    unfold pickBest
    rw [← foldl_nested]
    congr 1
    funext st p
    rw [List.foldl_map]
    congr 1
    funext st pr
    by_cases h : segMatch isWin p pr.1
    · simp only [pickStep, h, if_pos, true_and]
    · simp [pickStep, h]
  rw [hmain]

theorem assignWorkspace_layout_as_pickBest (isWin : Bool) (pl : List Str)
    (entries : List WorkspaceEntry) :
    pl.foldl (fun st rp =>
      match truthyS (getProjectFromFilePath isWin rp entries) with
      | some m =>
        if st.2 < (normalizeFilePath isWin rp).length
        then (some m, (normalizeFilePath isWin rp).length) else st
      | none => st) ((none : Option Str), 0)
    = pickBest (pl.filterMap (layoutScore isWin entries)) ((none : Option Str), 0) := by
  unfold pickBest
  rw [← foldl_filterMap_eq]
  congr 1
  funext st rp
  unfold layoutScore
  cases truthyS (getProjectFromFilePath isWin rp entries)
  · rfl
  · simp [pickStep]

theorem recGet_recSet (m : RecS) (k v k' : Str) :
    recGet (recSet m k v) k' = if k' = k then some v else recGet m k' := by
  unfold recGet recSet assocGet
  by_cases h : k = k'
  · rw [List.find?_cons_of_pos _ (by simpa using h), if_pos h.symm]
    rfl
  · rw [List.find?_cons_of_neg _ (by simpa using h),
      if_neg (fun hh : k' = k => h hh.symm)]

theorem recGet_foldl_recSet (l : List (Str × Str)) :
    ∀ (m : RecS) (k : Str),
      recGet (l.foldl (fun m pr => recSet m pr.1 pr.2) m) k =
        match l.reverse.find? (fun pr => decide (pr.1 = k)) with
        | some pr => some pr.2
        | none => recGet m k := by
  induction l with
  | nil => intro m k; rfl
  | cons pr rest ih =>
    intro m k
    simp only [List.foldl_cons, List.reverse_cons, List.find?_append]
    rw [ih]
    cases hfind : rest.reverse.find? (fun pr => decide (pr.1 = k)) with
    | none =>
      rw [Option.none_or, recGet_recSet]
      by_cases h : pr.1 = k
      · rw [List.find?_cons_of_pos _ (by simpa using h), if_pos h.symm]
      · rw [List.find?_cons_of_neg _ (by simpa using h),
          if_neg (fun hh : k = pr.1 => h hh.symm)]
        rfl
    | some q => rfl

theorem createMap_eq_foldl (workspaceEntries : List WorkspaceEntry) :
    createProjectNameToWorkspaceIdMap workspaceEntries =
      (basenameContribs workspaceEntries).foldl (fun m pr => recSet m pr.1 pr.2) [] := by
  unfold createProjectNameToWorkspaceIdMap basenameContribs
  rw [← foldl_nested]
  congr 1
  funext m entry
  rw [← foldl_filterMap_eq]
  congr 1
  funext m folder
  by_cases h : basenameOr (stripLeading fileSlash2 folder) ≠ [] <;> simp [h]

theorem uriTokens_cons_ne (c : Char) (rest : Str) (hc : ¬ c = '%') :
    uriTokens (c :: rest) = (uriTokens rest).map (fun ts => UriTok.raw c :: ts) := by
  rw [uriTokens.eq_def]
  simp only [if_neg hc]

theorem uriTokens_no_pct (s : Str) (h : '%' ∉ s) :
    uriTokens s = some (s.map UriTok.raw) := by
  induction s with
  | nil => rfl
  | cons c rest ih =>
    have hc : ¬ c = '%' := fun hcc => h (hcc ▸ List.mem_cons_self c rest)
    have hr : '%' ∉ rest := fun hm => h (List.mem_cons_of_mem _ hm)
    rw [uriTokens_cons_ne c rest hc, ih hr]
    rfl

theorem uriAssemble_raw (s : Str) : uriAssemble (s.map UriTok.raw) = some s := by
  induction s with
  | nil => rfl
  | cons c rest ih =>
    have step : uriAssemble (UriTok.raw c :: rest.map UriTok.raw) =
        (uriAssemble (rest.map UriTok.raw)).map (fun s => c :: s) := rfl
    rw [List.map_cons, step, ih]
    rfl

theorem decode_no_pct (s : Str) (h : '%' ∉ s) : decodeUriComponent s = some s := by
  unfold decodeUriComponent
  rw [uriTokens_no_pct s h]
  exact uriAssemble_raw s

theorem stripLeading_of_not {pre s : Str} (h : ¬ pre <+: s) : stripLeading pre s = s := by
  unfold stripLeading
  rw [if_neg h]

theorem respUpdate_fst (st : Option Int) (b : ChatBubble) :
    (respUpdate st b).1 = if b.isUser then b.timestamp else st := by
  unfold respUpdate
  by_cases h : b.isUser
  · simp [h]
  · simp only [h, if_neg, Bool.false_eq_true, if_false]
    cases st <;> cases hb : b.timestamp <;> simp
    split <;> rfl

theorem respGo_length (bs : List ChatBubble) : ∀ st, (respGo st bs).length = bs.length := by
  induction bs with
  | nil => intro st; rfl
  | cons b rest ih => intro st; simp only [respGo, List.length_cons, ih]

theorem respGo_get (bs : List ChatBubble) :
    ∀ (st : Option Int) (i : Nat) (h : i < bs.length) (h2 : i < (respGo st bs).length),
      (respGo st bs).get ⟨i, h2⟩ =
        (respUpdate ((bs.take i).foldl (fun st b => if b.isUser then b.timestamp else st) st)
          (bs.get ⟨i, h⟩)).2 := by
  induction bs with
  | nil => intro st i h h2; exact absurd h (Nat.not_lt_zero i)
  | cons b rest ih =>
    intro st i h h2
    cases i with
    | zero => rfl
    | succ i =>
      have h' : i < rest.length := Nat.lt_of_succ_lt_succ h
      have h2' : i < (respGo (respUpdate st b).1 rest).length := by
        rw [respGo_length]; exact h'
      show (respGo (respUpdate st b).1 rest).get ⟨i, h2'⟩ = _
      rw [ih (respUpdate st b).1 i h' h2']
      rw [List.take_succ_cons, List.foldl_cons, respUpdate_fst]
      rfl

theorem length_respPass (bs : List ChatBubble) : (respPass bs).length = bs.length :=
  respGo_length bs none

theorem length_insertBubble (l : List ChatBubble) (b : ChatBubble) :
    (insertBubble l b).length = l.length + 1 := by
  induction l with
  | nil => rfl
  | cons c rest ih =>
    unfold insertBubble
    by_cases h : sortKeyTs c ≤ sortKeyTs b
    · rw [if_pos h]
      simp [ih]
    · rw [if_neg h]
      rfl

theorem length_sortBubbles (bs : List ChatBubble) : (sortBubbles bs).length = bs.length := by
  unfold sortBubbles
  have hgen : ∀ (l acc : List ChatBubble),
      (l.foldl insertBubble acc).length = acc.length + l.length := by
    intro l
    induction l with
    | nil => intro acc; simp
    | cons b rest ih =>
      intro acc
      rw [List.foldl_cons, ih, length_insertBubble, List.length_cons]
      omega
  rw [hgen]
  simp

theorem assocGet_mem {β : Type} (m : List (Str × β)) (k : Str) (b : β)
    (h : assocGet m k = some b) : ∃ pr ∈ m, pr.2 = b := by
  unfold assocGet at h
  cases hf : m.find? (fun p => decide (p.1 = k)) with
  | none => rw [hf] at h; cases h
  | some pr =>
    rw [hf] at h
    exact ⟨pr, List.mem_of_find?_eq_some hf, by injection h⟩

/-- C1: when the definitive per-workspace composer map has a (truthy) entry
for the conversation, the resolver returns exactly that workspace id, whatever
the declared root paths, referenced-path signals or segment-heuristic matches
would have said: no path logic is consulted. -/
theorem claim_C1 (isWin : Bool) (composerData : ComposerRecord) (composerId : Str)
    (projectLayoutsMap : List (Str × List Str))
    (projectNameToWorkspaceId workspacePathToId : RecS)
    (workspaceEntries : List WorkspaceEntry) (bubbleMap : List (Str × Bubble))
    (composerIdToWorkspaceId : RecS) (w : Str)
    (hdirect : recGet composerIdToWorkspaceId composerId = some w) (hw : w ≠ []) :
    determineProjectForConversation isWin composerData composerId projectLayoutsMap
      projectNameToWorkspaceId workspacePathToId workspaceEntries bubbleMap
      composerIdToWorkspaceId = some w := by
  unfold determineProjectForConversation
  rw [hdirect]
  simp [truthyS, hw]

theorem claim_C1_witness :
    recGet [("c1".data, "WD".data)] ("c1".data) = some ("WD".data) ∧
    determineProjectForConversation false {} ("c1".data)
      [(("c1".data), ["/a/p1".data])] [] [("/a/p1".data, "W1".data)] [] []
      [("c1".data, "WD".data)] = some ("WD".data) :=
  ⟨by decide,
    claim_C1 false {} ("c1".data) [(("c1".data), ["/a/p1".data])] []
      [("/a/p1".data, "W1".data)] [] [] [("c1".data, "WD".data)] ("WD".data)
      (by decide) (by decide)⟩

/-- C3 counterexample: two workspaces contribute the same basename app; the
built index maps app to the second (last-encountered) workspace, not the
first, so first-writer-wins is false on the code. -/
theorem claim_C3_counterexample :
    recGet (createProjectNameToWorkspaceIdMap
        [⟨"W1".data, ["/x/app".data]⟩, ⟨"W2".data, ["/y/app".data]⟩]) ("app".data)
      = some ("W2".data) ∧
    recGet (createProjectNameToWorkspaceIdMap
        [⟨"W1".data, ["/x/app".data]⟩, ⟨"W2".data, ["/y/app".data]⟩]) ("app".data)
      ≠ some ("W1".data) := by decide

/-- C3 amended: the basename index is built by plain JS object assignment, so
on a basename collision the last writer in input order wins: a lookup returns
the value of the last contribution carrying that basename. -/
theorem claim_C3 (workspaceEntries : List WorkspaceEntry) (b : Str) :
    recGet (createProjectNameToWorkspaceIdMap workspaceEntries) b =
      ((basenameContribs workspaceEntries).reverse.find?
        (fun pr => decide (pr.1 = b))).map (fun pr => pr.2) := by
  rw [createMap_eq_foldl, recGet_foldl_recSet]
  cases (basenameContribs workspaceEntries).reverse.find? (fun pr => decide (pr.1 = b))
    <;> rfl

/-- C6: the full-path catalog match is a raw string-prefix test over
normalized paths selecting the longest matching root, ties to the
first-encountered entry (the first candidate attaining the maximal score);
the two concrete scenarios show longest-prefix choice and the absence of any
path-segment boundary check. -/
theorem claim_C6 :
    (∀ (isWin : Bool) (filePath : Str) (entries : List WorkspaceEntry),
      getProjectFromFilePath isWin filePath entries =
        if maxScore (prefixScores isWin filePath entries) = 0 then none
        else (firstAtMax (prefixScores isWin filePath entries)).map (fun q => q.1))
    ∧ getProjectFromFilePath false ("/a/b/c/d.txt".data)
        [⟨"W1".data, ["/a/b".data]⟩, ⟨"W2".data, ["/a/b/c".data]⟩] = some ("W2".data)
    ∧ getProjectFromFilePath false ("/a/beetle/x".data)
        [⟨"W".data, ["/a/bee".data]⟩] = some ("W".data) := by
  refine ⟨fun isWin fp entries => ?_, by decide, by decide⟩
  rw [getProject_as_pickBest, pickBest_result]

/-- C7: the segment test holds exactly when the basename occurs bounded by
the separator on both sides or by the separator on the left and the end of
the string, and the heuristic returns the workspace of the first candidate
attaining the maximal basename length over all (path, basename) pairs. -/
theorem claim_C7 :
    (∀ (isWin : Bool) (p name : Str),
      segMatch isWin p name ↔ ∃ pre post : Str,
        p = pre ++ (sepChar isWin :: name) ++ post ∧
          (post = [] ∨ ∃ rest, post = sepChar isWin :: rest))
    ∧ (∀ (isWin : Bool) (pathSegments : List Str) (folderNames : List (Str × Str)),
      segmentHeuristic isWin pathSegments folderNames =
        if maxScore (segScores isWin pathSegments folderNames) = 0 then none
        else (firstAtMax (segScores isWin pathSegments folderNames)).map (fun q => q.1)) := by
  constructor
  · intro isWin p name
    unfold segMatch
    constructor
    · rintro (⟨s, t, hst⟩ | ⟨s, hs⟩)
      · exact ⟨s, sepChar isWin :: t, by rw [← hst]; simp, Or.inr ⟨t, rfl⟩⟩
      · exact ⟨s, [], by rw [← hs]; simp, Or.inl rfl⟩
    · rintro ⟨pre, post, hp, (rfl | ⟨rest, rfl⟩)⟩
      · exact Or.inr ⟨pre, by rw [hp]; simp⟩
      · exact Or.inl ⟨pre, rest, by rw [hp]; simp⟩
  · intro isWin ps ns
    rw [segmentHeuristic_as_pickBest, pickBest_result]

/-- C4 counterexample: in the tabs-route resolver the first declared path that
matches wins, even when a later declared path with a strictly longer
normalized form matches a different workspace. -/
theorem claim_C4_counterexample :
    determineProjectCore false {} ("c1".data)
        [(("c1".data), ["/a/p1".data, "/a/p1/q2".data])] []
        [("/a/p1".data, "W1".data), ("/a/p1/q2".data, "W2".data)] [] []
      = some ("W1".data)
    ∧ (normalizeFilePath false ("/a/p1".data)).length
        < (normalizeFilePath false ("/a/p1/q2".data)).length
    ∧ layoutLookupRoute false [] [("/a/p1".data, "W1".data), ("/a/p1/q2".data, "W2".data)]
        ("/a/p1/q2".data) = some ("W2".data)
    ∧ ("W1".data : Str) ≠ "W2".data := by decide

/-- C4 amended: the CLI exporter re-ranks declared paths by the length of
their normalized string (first candidate attaining the maximum wins), while
the route resolver returns the workspace of the first declared path whose
exact-path or basename lookup succeeds, in capture order. -/
theorem claim_C4 :
    (∀ (isWin : Bool) (composerData : ComposerRecord) (composerId : Str)
      (projectLayoutsMap : List (Str × List Str)) (workspaceEntries : List WorkspaceEntry)
      (bubbleMap : List (Str × Bubble)),
      assignWorkspace isWin composerData composerId projectLayoutsMap workspaceEntries
          bubbleMap =
        match (if maxScore (((assocGet projectLayoutsMap composerId).getD []).filterMap
              (layoutScore isWin workspaceEntries)) = 0
          then none
          else (firstAtMax (((assocGet projectLayoutsMap composerId).getD []).filterMap
              (layoutScore isWin workspaceEntries))).map (fun q => q.1)) with
        | some w => w
        | none =>
          jsOrS (segmentHeuristic isWin
            (collectPathSegments isWin composerData bubbleMap)
            (folderNameEntries workspaceEntries)) ("global".data))
    ∧ (∀ (isWin : Bool) (composerData : ComposerRecord) (composerId : Str)
      (projectLayoutsMap : List (Str × List Str))
      (projectNameToWorkspaceId workspacePathToId : RecS)
      (workspaceEntries : List WorkspaceEntry) (bubbleMap : List (Str × Bubble))
      (p : Str) (rest : List Str) (w : Str),
      assocGet projectLayoutsMap composerId = some (p :: rest) →
      layoutLookupRoute isWin projectNameToWorkspaceId workspacePathToId p = some w →
      determineProjectCore isWin composerData composerId projectLayoutsMap
        projectNameToWorkspaceId workspacePathToId workspaceEntries bubbleMap = some w) := by
  constructor
  · intro isWin cd cid plMap entries bmap
    unfold assignWorkspace
    rw [assignWorkspace_layout_as_pickBest, pickBest_result]
  · intro isWin cd cid plMap pnMap wpMap entries bmap p rest w hmap hlook
    unfold determineProjectCore
    rw [hmap]
    show (match (p :: rest).findSome? (layoutLookupRoute isWin pnMap wpMap) with
      | some w => some w
      | none => _) = some w
    rw [List.findSome?_cons]
    rw [hlook]

theorem claim_C4_witness :
    determineProjectCore false {} ("c1".data) [(("c1".data), ["/a/p1".data])] []
      [("/a/p1".data, "W1".data)] [] [] = some ("W1".data) :=
  claim_C4.2 false {} ("c1".data) [(("c1".data), ["/a/p1".data])] []
    [("/a/p1".data, "W1".data)] [] [] ("/a/p1".data) [] ("W1".data)
    (by decide) (by decide)

theorem toNat_ofNat_valid (n : Nat) (h : n.isValidChar) : (Char.ofNat n).toNat = n := by
  simp [Char.ofNat, h, Char.ofNatAux, Char.toNat, UInt32.toNat, BitVec.toNat_ofNatLt]

theorem toLower_upper (c : Char) (h : 65 ≤ c.toNat ∧ c.toNat ≤ 90) :
    (Char.toLower c).toNat = c.toNat + 32 := by
  show (if 65 ≤ c.toNat ∧ c.toNat ≤ 90 then Char.ofNat (c.toNat + 32) else c).toNat
    = c.toNat + 32
  rw [if_pos h]
  exact toNat_ofNat_valid _ (Or.inl (by omega))

theorem toLower_not_upper (c : Char) (h : ¬ (65 ≤ c.toNat ∧ c.toNat ≤ 90)) :
    Char.toLower c = c := by
  show (if 65 ≤ c.toNat ∧ c.toNat ≤ 90 then Char.ofNat (c.toNat + 32) else c) = c
  rw [if_neg h]

theorem toLower_eq_low (c d : Char) (hd : d.toNat < 97) (h : Char.toLower c = d) : c = d := by
  by_cases hc : 65 ≤ c.toNat ∧ c.toNat ≤ 90
  · exfalso
    have h2 := toLower_upper c hc
    rw [h] at h2
    omega
  · rw [← h, toLower_not_upper c hc]

theorem toLower_toLower (c : Char) : Char.toLower (Char.toLower c) = Char.toLower c := by
  by_cases h : 65 ≤ c.toNat ∧ c.toNat ≤ 90
  · have h2 := toLower_upper c h
    apply toLower_not_upper
    rw [h2]
    omega
  · rw [toLower_not_upper c h]
    exact toLower_not_upper c h

theorem isLetterN (b : Char) (hb : ('a' ≤ b ∧ b ≤ 'z') ∨ ('A' ≤ b ∧ b ≤ 'Z')) :
    (97 ≤ b.toNat ∧ b.toNat ≤ 122) ∨ (65 ≤ b.toNat ∧ b.toNat ≤ 90) := hb

theorem toLower_letter_ne_backslash (b : Char)
    (hb : ('a' ≤ b ∧ b ≤ 'z') ∨ ('A' ≤ b ∧ b ≤ 'Z')) : Char.toLower b ≠ '\\' := by
  intro h
  rcases isLetterN b hb with ⟨h1, h2⟩ | hup
  · rw [toLower_not_upper b (by omega)] at h
    have h3 : b.toNat = 92 := by rw [h]; decide
    omega
  · have h2 := toLower_upper b hup
    rw [h] at h2
    have h3 : (92 : Nat) = b.toNat + 32 := h2
    omega

theorem letter_of_toLower_letter (b : Char)
    (h : ('a' ≤ Char.toLower b ∧ Char.toLower b ≤ 'z') ∨
      ('A' ≤ Char.toLower b ∧ Char.toLower b ≤ 'Z')) :
    ('a' ≤ b ∧ b ≤ 'z') ∨ ('A' ≤ b ∧ b ≤ 'Z') := by
  by_cases hc : 65 ≤ b.toNat ∧ b.toNat ≤ 90
  · exact Or.inr hc
  · rw [toLower_not_upper b hc] at h
    exact h

theorem stripDriveSlash_cons3 (a b c : Char) (rest : Str) :
    stripDriveSlash (a :: b :: c :: rest) =
      if a = '\\' ∧ c = ':' ∧ (('a' ≤ b ∧ b ≤ 'z') ∨ ('A' ≤ b ∧ b ≤ 'Z'))
      then b :: c :: rest
      else a :: b :: c :: rest := rfl

theorem stripDrive_map_toLower (z : Str) :
    stripDriveSlash ((stripDriveSlash z).map Char.toLower) =
      (stripDriveSlash z).map Char.toLower := by
  rcases z with _ | ⟨a, _ | ⟨b, _ | ⟨c3, rest⟩⟩⟩
  · rfl
  · rfl
  · rfl
  · rw [stripDriveSlash_cons3]
    by_cases hcond : a = '\\' ∧ c3 = ':' ∧ (('a' ≤ b ∧ b ≤ 'z') ∨ ('A' ≤ b ∧ b ≤ 'Z'))
    · rw [if_pos hcond]
      obtain ⟨ha, hc3, hb⟩ := hcond
      subst hc3
      simp only [List.map_cons]
      rcases hr : rest.map Char.toLower with _ | ⟨r1, rtail⟩
      · rfl
      · rw [show Char.toLower ':' = ':' from rfl, stripDriveSlash_cons3]
        rw [if_neg (fun hcc => toLower_letter_ne_backslash b hb hcc.1)]
    · rw [if_neg hcond]
      simp only [List.map_cons]
      rw [stripDriveSlash_cons3]
      rw [if_neg ?hne]
      case hne =>
        rintro ⟨h1, h2, h3⟩
        exact hcond ⟨toLower_eq_low a '\\' (by decide) h1,
          toLower_eq_low c3 ':' (by decide) h2, letter_of_toLower_letter b h3⟩

theorem mem_stripDriveSlash (s : Str) (c : Char) (h : c ∈ stripDriveSlash s) : c ∈ s := by
  rcases s with _ | ⟨a, _ | ⟨b, _ | ⟨c3, rest⟩⟩⟩
  · exact h
  · exact h
  · exact h
  · rw [stripDriveSlash_cons3] at h
    by_cases hcond : a = '\\' ∧ c3 = ':' ∧ (('a' ≤ b ∧ b ≤ 'z') ∨ ('A' ≤ b ∧ b ≤ 'Z'))
    · rw [if_pos hcond] at h
      exact List.mem_cons_of_mem _ h
    · rw [if_neg hcond] at h
      exact h

theorem not_mem_slash_conv (s : Str) :
    '/' ∉ s.map (fun c => if c = '/' then '\\' else c) := by
  intro hm
  rcases List.mem_map.mp hm with ⟨c, _, hce⟩
  by_cases h : c = '/'
  · rw [if_pos h] at hce
    exact absurd hce (by decide)
  · rw [if_neg h] at hce
    exact h hce

theorem slash_conv_id (s : Str) (h : '/' ∉ s) :
    s.map (fun c => if c = '/' then '\\' else c) = s := by
  induction s with
  | nil => rfl
  | cons c rest ih =>
    have hc : ¬ c = '/' := fun hh => h (hh ▸ List.mem_cons_self c rest)
    rw [List.map_cons, if_neg hc, ih (fun hm => h (List.mem_cons_of_mem _ hm))]

theorem not_mem_slash_toLower (s : Str) (h : '/' ∉ s) : '/' ∉ s.map Char.toLower := by
  intro hm
  rcases List.mem_map.mp hm with ⟨c, hc, hce⟩
  exact h ((toLower_eq_low c '/' (by decide) hce) ▸ hc)

theorem map_toLower_idem (s : Str) :
    (s.map Char.toLower).map Char.toLower = s.map Char.toLower := by
  rw [List.map_map]
  exact List.map_congr_left (fun c _ => toLower_toLower c)

theorem normalize_fixed (y : Str) (hp : '%' ∉ y) (hf : ¬ fileSlash2 <+: y) :
    normalizeFilePath false y = y := by
  have h3 : ¬ fileSlash3 <+: y := fun h =>
    hf ((by decide : fileSlash2 <+: fileSlash3).trans h)
  unfold normalizeFilePath
  simp only [stripLeading_of_not h3, stripLeading_of_not hf, decode_no_pct _ hp,
    Bool.false_eq_true, if_false]

theorem normalizeWin_shape (x : Str) : ∃ w : Str, '/' ∉ w ∧
    normalizeFilePath true x = (stripDriveSlash w).map Char.toLower := by
  unfold normalizeFilePath
  dsimp only
  exact ⟨_, not_mem_slash_conv _, rfl⟩

theorem normalize_fixed_win (y : Str) (hp : '%' ∉ y) (hf : ¬ fileSlash2 <+: y)
    (hslash : '/' ∉ y) (hdrive : stripDriveSlash y = y)
    (hlower : y.map Char.toLower = y) :
    normalizeFilePath true y = y := by
  have h3 : ¬ fileSlash3 <+: y := fun h =>
    hf ((by decide : fileSlash2 <+: fileSlash3).trans h)
  unfold normalizeFilePath
  simp only [stripLeading_of_not h3, stripLeading_of_not hf, decode_no_pct _ hp,
    slash_conv_id y hslash, hdrive, hlower, if_true]

/-- C5 counterexample: a double-encoded escape is decoded once per
application, and a percent-encoded file:// prefix only becomes strippable
after the first decode, so normalization is not idempotent. -/
theorem claim_C5_counterexample :
    normalizeFilePath false (normalizeFilePath false ("a%2541".data))
      ≠ normalizeFilePath false ("a%2541".data)
    ∧ normalizeFilePath false (normalizeFilePath false ("file%3A%2F%2Ffoo".data))
      ≠ normalizeFilePath false ("file%3A%2F%2Ffoo".data) := by
  decide

/-- C5 amended: on either platform branch, normalization is idempotent on
every input whose once-normalized form contains no percent sign and does not
start with file:// (re-decoding of surviving escapes and re-stripping of a
decoded scheme prefix being the two failure modes the counterexample
exhibits; the Windows slash conversion, drive-letter fix and lowercasing are
stable on re-application). -/
theorem claim_C5 (isWin : Bool) (x : Str)
    (hp : '%' ∉ normalizeFilePath isWin x)
    (hf : ¬ fileSlash2 <+: normalizeFilePath isWin x) :
    normalizeFilePath isWin (normalizeFilePath isWin x) = normalizeFilePath isWin x := by
  cases isWin with
  | false => exact normalize_fixed (normalizeFilePath false x) hp hf
  | true =>
    obtain ⟨w, hws, hw⟩ := normalizeWin_shape x
    rw [hw] at hp hf ⊢
    exact normalize_fixed_win _ hp hf
      (not_mem_slash_toLower _ (fun hm => hws (mem_stripDriveSlash _ _ hm)))
      (stripDrive_map_toLower w) (map_toLower_idem _)

theorem claim_C5_witness :
    ('%' ∉ normalizeFilePath false ("file:///home/u/p%20q".data)) ∧
    (¬ fileSlash2 <+: normalizeFilePath false ("file:///home/u/p%20q".data)) ∧
    normalizeFilePath false (normalizeFilePath false ("file:///home/u/p%20q".data))
      = normalizeFilePath false ("file:///home/u/p%20q".data) ∧
    ('%' ∉ normalizeFilePath true ("file:///C:/Users/X%20Y/proj".data)) ∧
    (¬ fileSlash2 <+: normalizeFilePath true ("file:///C:/Users/X%20Y/proj".data)) ∧
    normalizeFilePath true (normalizeFilePath true ("file:///C:/Users/X%20Y/proj".data))
      = normalizeFilePath true ("file:///C:/Users/X%20Y/proj".data) :=
  ⟨by decide, by decide,
    claim_C5 false ("file:///home/u/p%20q".data) (by decide) (by decide),
    by decide, by decide,
    claim_C5 true ("file:///C:/Users/X%20Y/proj".data) (by decide) (by decide)⟩

/-- C8: over a bubble list carrying no prior response times, the pass records
a response time exactly on assistant bubbles whose timestamp is strictly
later than the threaded last-user timestamp, with value equal to the
difference; the recorded value is therefore strictly positive, and assistant
bubbles with a missing or not-strictly-later timestamp carry none. -/
theorem claim_C8 (bubbles : List ChatBubble)
    (hclean : ∀ b ∈ bubbles, respOf b = none)
    (i : Nat) (h : i < bubbles.length) (h2 : i < (respPass bubbles).length) :
    respOf ((respPass bubbles).get ⟨i, h2⟩) = respSpec bubbles i h ∧
    ∀ r, respSpec bubbles i h = some r → 0 < r := by
  have hb : respOf (bubbles.get ⟨i, h⟩) = none := hclean _ (List.get_mem bubbles i h)
  constructor
  · unfold respPass
    rw [respGo_get bubbles none i h h2]
    unfold respSpec respUpdate lastUserAfter
    by_cases hu : (bubbles.get ⟨i, h⟩).isUser
    · rw [if_pos hu, if_pos hu]
      exact hb
    · rw [if_neg hu, if_neg hu]
      cases hst : (bubbles.take i).foldl
          (fun st b => if b.isUser then b.timestamp else st) (none : Option Int) with
      | none =>
        cases hts : (bubbles.get ⟨i, h⟩).timestamp <;> exact hb
      | some lu =>
        cases hts : (bubbles.get ⟨i, h⟩).timestamp with
        | none => exact hb
        | some t =>
          dsimp only
          by_cases hlt : lu < t
          · rw [if_pos hlt, if_pos hlt]
            unfold respOf
            cases (bubbles.get ⟨i, h⟩).metadata <;> rfl
          · rw [if_neg hlt, if_neg hlt]
            exact hb
  · intro r hr
    unfold respSpec at hr
    by_cases hu : (bubbles.get ⟨i, h⟩).isUser
    · rw [if_pos hu] at hr; cases hr
    · rw [if_neg hu] at hr
      cases hts : (bubbles.get ⟨i, h⟩).timestamp with
      | none => rw [hts] at hr; cases hr
      | some t =>
        rw [hts] at hr
        cases hlu : lastUserAfter (bubbles.take i) with
        | none => rw [hlu] at hr; cases hr
        | some lu =>
          rw [hlu] at hr
          dsimp only at hr
          by_cases hlt : lu < t
          · rw [if_pos hlt] at hr
            injection hr with hr2
            omega
          · rw [if_neg hlt] at hr; cases hr

theorem claim_C8_witness :
    respOf ((respPass [⟨true, "q".data, some 10, none⟩,
        ⟨false, "a".data, some 15, none⟩]).get ⟨1, by decide⟩) =
      respSpec [⟨true, "q".data, some 10, none⟩,
        ⟨false, "a".data, some 15, none⟩] 1 (by decide) ∧
    ∀ r, respSpec [⟨true, "q".data, some 10, none⟩,
        ⟨false, "a".data, some 15, none⟩] 1 (by decide) = some r → 0 < r :=
  claim_C8 [⟨true, "q".data, some 10, none⟩, ⟨false, "a".data, some 15, none⟩]
    (by decide) 1 (by decide) (by decide)

theorem jsOrI_ownTs (bubble : Bubble) (hts : bubbleOwnTs bubble ≠ none) (n1 n2 : Int) :
    jsOrI bubble.createdAt (jsOrI bubble.timestamp n1) =
      jsOrI bubble.createdAt (jsOrI bubble.timestamp n2) := by
  unfold bubbleOwnTs at hts
  unfold jsOrI
  cases hc : bubble.createdAt with
  | some v =>
    rw [hc] at hts
    by_cases hv : v = 0
    · cases ht : bubble.timestamp with
      | some w =>
        rw [ht] at hts
        by_cases hw : w = 0
        · simp [hv, hw] at hts
        · simp [hv, hw]
      | none =>
        rw [ht] at hts
        simp [hv] at hts
    · simp [hv]
  | none =>
    rw [hc] at hts
    cases ht : bubble.timestamp with
    | some w =>
      rw [ht] at hts
      by_cases hw : w = 0
      · simp [hw] at hts
      · simp [hw]
    | none =>
      rw [ht] at hts
      simp at hts

theorem mkChatBubble_now_congr (messageContexts : List MsgContext)
    (bubbleMap : List (Str × Bubble)) (now1 now2 : Int) (header : HeaderRef)
    (hts : ∀ pr ∈ bubbleMap, bubbleOwnTs pr.2 ≠ none) :
    mkChatBubble messageContexts bubbleMap now1 header =
      mkChatBubble messageContexts bubbleMap now2 header := by
  unfold mkChatBubble
  cases hlook : assocGet bubbleMap header.bubbleId with
  | none => rfl
  | some bubble =>
    obtain ⟨pr, hmem, hpr⟩ := assocGet_mem bubbleMap header.bubbleId bubble hlook
    have hown : bubbleOwnTs bubble ≠ none := hpr ▸ hts pr hmem
    simp only [jsOrI_ownTs bubble hown now1 now2]

/-- C2 counterexample: a fragment without a truthy stored timestamp falls
back to the Date.now() reading, so assembling the same record at two clock
readings yields different outputs. -/
theorem claim_C2_counterexample :
    buildTab { fullConversationHeadersOnly := [⟨"b1".data, 1⟩] } ("c1".data) []
        [("b1".data, { text := "hi".data })] [] 0
      ≠ buildTab { fullConversationHeadersOnly := [⟨"b1".data, 1⟩] } ("c1".data) []
        [("b1".data, { text := "hi".data })] [] 1 := by
  decide

/-- C2 amended: assembly is a pure function of the record, the fragment map,
the diffs and the clock reading; it is identical across clock readings
whenever every stored fragment carries a truthy createdAt or timestamp and
the conversation has no code-block diffs (the two Date.now() fallbacks). -/
theorem claim_C2 (composerData : ComposerRecord) (composerId : Str)
    (messageContexts : List MsgContext) (bubbleMap : List (Str × Bubble))
    (now1 now2 : Int)
    (hts : ∀ pr ∈ bubbleMap, bubbleOwnTs pr.2 ≠ none) :
    buildTab composerData composerId messageContexts bubbleMap [] now1 =
      buildTab composerData composerId messageContexts bubbleMap [] now2 := by
  have hbub : composerData.fullConversationHeadersOnly.filterMap
        (mkChatBubble messageContexts bubbleMap now1) =
      composerData.fullConversationHeadersOnly.filterMap
        (mkChatBubble messageContexts bubbleMap now2) :=
    List.filterMap_congr (fun hh _ =>
      mkChatBubble_now_congr messageContexts bubbleMap now1 now2 hh hts)
  unfold buildTab
  rw [hbub]
  simp only [List.filterMap_nil]

theorem claim_C2_witness :
    (∀ pr ∈ [(("b1".data : Str), ({ text := "hi".data, createdAt := some 5 } : Bubble))],
      bubbleOwnTs pr.2 ≠ none) ∧
    buildTab { fullConversationHeadersOnly := [⟨"b1".data, 1⟩] } ("c1".data) []
        [("b1".data, { text := "hi".data, createdAt := some 5 })] [] 0
      = buildTab { fullConversationHeadersOnly := [⟨"b1".data, 1⟩] } ("c1".data) []
        [("b1".data, { text := "hi".data, createdAt := some 5 })] [] 1 :=
  ⟨by decide,
    claim_C2 { fullConversationHeadersOnly := [⟨"b1".data, 1⟩] } ("c1".data) []
      [("b1".data, { text := "hi".data, createdAt := some 5 })] 0 1 (by decide)⟩

theorem mkToolCalls_isSome (bubble : Bubble) :
    (mkToolCalls bubble).isSome = bubble.toolFormerData.isSome := by
  unfold mkToolCalls
  cases bubble.toolFormerData <;> rfl

/-- C9 counterexample: a fragment with no displayable text, no tool
invocation and no reasoning trace is still kept by the tabs route when a
message-request-context row for it carries git status, so it appears in the
assembled message list. -/
theorem claim_C9_counterexample :
    extractTextFromBubble {} = [] ∧ ({} : Bubble).toolFormerData = none ∧
    bubbleThinking {} = none ∧
    (buildTab { fullConversationHeadersOnly := [⟨"b1".data, 1⟩] } ("c1".data)
        [{ bubbleId := "b1".data, gitStatusRaw := some "x".data }]
        [("b1".data, ({} : Bubble))] [] 0).map (fun t => t.bubbles.length) = some 1 := by
  decide

/-- C9 amended: a header is dropped exactly when its bubble is missing or
when the flattened text plus the appended request-context annotations trims
to nothing and there is no tool invocation and no truthy reasoning trace; the
assembled message list is exactly the kept bubbles plus the diff bubbles,
sorted and response-annotated, so a fragment kept only for its tool
invocation or only for its reasoning trace appears (last two conjuncts). -/
theorem claim_C9 :
    (∀ (messageContexts : List MsgContext) (bubbleMap : List (Str × Bubble)) (now : Int)
      (header : HeaderRef),
      mkChatBubble messageContexts bubbleMap now header = none ↔
        (assocGet bubbleMap header.bubbleId = none ∨
          ∃ b, assocGet bubbleMap header.bubbleId = some b ∧
            trimStr (extractTextFromBubble b
              ++ contextTextFor messageContexts header.bubbleId) = [] ∧
            b.toolFormerData = none ∧ truthyS (bubbleThinking b) = none))
    ∧ (∀ (composerData : ComposerRecord) (composerId : Str)
      (messageContexts : List MsgContext) (bubbleMap : List (Str × Bubble))
      (codeBlockDiffs : List ToolAction) (now : Int),
      (buildTab composerData composerId messageContexts bubbleMap codeBlockDiffs now).map
          (fun t => t.bubbles) =
        if composerData.fullConversationHeadersOnly.filterMap
            (mkChatBubble messageContexts bubbleMap now) = [] then none
        else some (respPass (sortBubbles
          (composerData.fullConversationHeadersOnly.filterMap
            (mkChatBubble messageContexts bubbleMap now)
          ++ codeBlockDiffs.filterMap (mkDiffBubble now)))))
    ∧ mkChatBubble [] [("b1".data, { toolFormerData := some {} })] 0 ⟨"b1".data, 2⟩ ≠ none
    ∧ mkChatBubble [] [("b1".data, { thinking := some (.str "hmm".data) })] 0
        ⟨"b1".data, 2⟩ ≠ none := by
  refine ⟨?_, ?_, by decide, by decide⟩
  · intro ctxs bmap now header
    unfold mkChatBubble
    cases hlook : assocGet bmap header.bubbleId with
    | none => simp
    | some b =>
      dsimp only
      by_cases hc : trimStr (extractTextFromBubble b
            ++ contextTextFor ctxs header.bubbleId) ≠ [] ∨
          (mkToolCalls b).isSome = true ∨ truthyS (bubbleThinking b) ≠ none
      · rw [if_pos hc]
        constructor
        · intro hcon; cases hcon
        · rintro (hnone | ⟨b', hb', h1, h2, h3⟩)
          · cases hnone
          · injection hb' with hbe
            subst hbe
            rcases hc with h | h | h
            · exact absurd h1 h
            · rw [mkToolCalls_isSome, h2] at h; cases h
            · exact absurd h3 h
      · rw [if_neg hc]
        obtain ⟨h1, h23⟩ := not_or.mp hc
        obtain ⟨h2, h3⟩ := not_or.mp h23
        constructor
        · intro _
          refine Or.inr ⟨b, rfl, not_not.mp h1, ?_, not_not.mp h3⟩
          rw [mkToolCalls_isSome] at h2
          exact Option.not_isSome_iff_eq_none.mp h2
        · intro _; rfl
  · intro cd cid ctxs bmap diffs now
    unfold buildTab
    dsimp only
    by_cases hb : cd.fullConversationHeadersOnly.filterMap (mkChatBubble ctxs bmap now) = []
    · rw [if_neg (fun hcon => hcon hb), if_pos hb]
      rfl
    · rw [if_pos hb, if_neg hb]
      rfl

/-- C10: every tab the route emits carries at least one message bubble, and a
conversation whose headers are all dropped produces no tab at all, even when
it matches the requested workspace. -/
theorem claim_C10 :
    (∀ (isWin : Bool) (paramsId : Str) (projectLayoutsMap : List (Str × List Str))
      (projectNameToWorkspaceId workspacePathToId : RecS)
      (workspaceEntries : List WorkspaceEntry) (bubbleMap : List (Str × Bubble))
      (messageRequestContextMap : List (Str × List MsgContext))
      (codeBlockDiffMap : List (Str × List ToolAction)) (now : Int)
      (composerRows : List (Str × ComposerRecord)) (tab : ChatTab),
      tab ∈ tabsResponse isWin paramsId projectLayoutsMap projectNameToWorkspaceId
        workspacePathToId workspaceEntries bubbleMap messageRequestContextMap
        codeBlockDiffMap now composerRows →
      tab.bubbles ≠ [])
    ∧ (∀ (isWin : Bool) (paramsId : Str) (projectLayoutsMap : List (Str × List Str))
      (projectNameToWorkspaceId workspacePathToId : RecS)
      (workspaceEntries : List WorkspaceEntry) (bubbleMap : List (Str × Bubble))
      (messageRequestContextMap : List (Str × List MsgContext))
      (codeBlockDiffMap : List (Str × List ToolAction)) (now : Int)
      (row : Str × ComposerRecord),
      (∀ hh ∈ row.2.fullConversationHeadersOnly,
        mkChatBubble ((assocGet messageRequestContextMap row.1).getD []) bubbleMap now hh
          = none) →
      processComposerRow isWin paramsId projectLayoutsMap projectNameToWorkspaceId
        workspacePathToId workspaceEntries bubbleMap messageRequestContextMap
        codeBlockDiffMap now row = none) := by
  constructor
  · intro isWin paramsId plMap pnMap wpMap entries bmap ctxMap diffMap now rows tab hmem
    unfold tabsResponse at hmem
    obtain ⟨row, hrow, hproc⟩ := List.mem_filterMap.mp hmem
    unfold processComposerRow at hproc
    by_cases hcond : (determineProjectCore isWin row.2 row.1 plMap pnMap wpMap entries
        bmap).getD ("global".data) = paramsId
    · rw [if_pos hcond] at hproc
      unfold buildTab at hproc
      dsimp only at hproc
      by_cases hbb : row.2.fullConversationHeadersOnly.filterMap
          (mkChatBubble ((assocGet ctxMap row.1).getD []) bmap now) = []
      · rw [if_neg (fun hcon => hcon hbb)] at hproc
        cases hproc
      · rw [if_pos hbb] at hproc
        injection hproc with htab
        rw [← htab]
        intro hnil
        have h1 := congrArg List.length hnil
        rw [length_respPass, length_sortBubbles, List.length_append,
          List.length_nil] at h1
        have h2 : 0 < (row.2.fullConversationHeadersOnly.filterMap
            (mkChatBubble ((assocGet ctxMap row.1).getD []) bmap now)).length :=
          List.length_pos.mpr hbb
        omega
    · rw [if_neg hcond] at hproc
      cases hproc
  · intro isWin paramsId plMap pnMap wpMap entries bmap ctxMap diffMap now row hall
    have hbuild : buildTab row.2 row.1 ((assocGet ctxMap row.1).getD []) bmap
        ((assocGet diffMap row.1).getD []) now = none := by
      unfold buildTab
      dsimp only
      rw [if_neg (fun hcon => hcon (List.filterMap_eq_nil_iff.mpr hall))]
    unfold processComposerRow
    by_cases hcond : (determineProjectCore isWin row.2 row.1 plMap pnMap wpMap entries
        bmap).getD ("global".data) = paramsId
    · rw [if_pos hcond]
      exact hbuild
    · rw [if_neg hcond]

theorem claim_C10_witness :
    processComposerRow false ("global".data) [] [] [] [] [("b1".data, ({} : Bubble))]
      [] [] 0 (("c1".data), { fullConversationHeadersOnly := [⟨"b1".data, 1⟩] }) = none :=
  claim_C10.2 false ("global".data) [] [] [] [] [("b1".data, ({} : Bubble))] [] [] 0
    (("c1".data), { fullConversationHeadersOnly := [⟨"b1".data, 1⟩] }) (by decide)
